import Mathlib

/-!
# Signals: registry and dispatch strategies

A shallow embedding of `base_signal.go`, `signals_sync.go` and
`signals_async.go`.

* A Go `error` is `Option GoError` (`none` is the nil error).
* A listener function is a closure: besides the context and the payload it
  reads and writes the variables it captured.  Those variables are the
  world `W`, threaded through every call.  The world is disjoint from the
  registry: listeners that call back into the signal they are registered
  on are outside this embedding.
* A Go function value may be nil, so the two fields of a listener are
  `Option`s; calling `none` is the runtime panic of a nil function call.
* Every call that is really made is appended to a ghost trace, with its
  index in the subscriber slice, its arguments and the value it returned.
-/

namespace Signals

/-! ## Data model -/

/-- Go error value; the nil error is `none` at the use sites. -/
structure GoError where
  msg : String
  deriving DecidableEq, Repr

/-- Modelled from the spec: the declaration of `SignalListener[T]` is not
among the sources; the spec gives it as `(Context, T) -> Error?` and
`AsyncSignal.Emit` passes it where `func(context.Context, T) error` is
expected.  The extra `W` is the state captured by the closure. -/
abbrev SignalListener (W C T : Type) := C → T → W → W × Option GoError

/-- Go struct `ListenerExtended`: both fields are function values and may be nil. -/
structure ListenerExtended (W C T : Type) where
  handler : Option (SignalListener W C T)
  rollback : Option (SignalListener W C T)

/-- Go struct `keyedListener`: the key field of an unkeyed listener is the
zero value of `string`, the empty string. -/
structure keyedListener (W C T : Type) where
  key : String
  listener : ListenerExtended W C T

/-- Go map `map[string]ListenerExtended[T]`, as its lookup function. -/
abbrev KeyMap (W C T : Type) := String → Option (ListenerExtended W C T)

/-- The map made by `make(map[string]ListenerExtended[T])`. -/
def KeyMap.empty {W C T : Type} : KeyMap W C T := fun _ => none

/-- Map assignment `m[k] = v`. -/
def KeyMap.insert {W C T : Type} (m : KeyMap W C T) (k : String)
    (v : ListenerExtended W C T) : KeyMap W C T :=
  fun k' => if k' = k then some v else m k'

/-- Builtin `delete(m, k)`. -/
def KeyMap.delete {W C T : Type} (m : KeyMap W C T) (k : String) : KeyMap W C T :=
  fun k' => if k' = k then none else m k'

/-- Go struct `BaseSignal`.  `subscribersMap = none` is the nil map of the
zero value `BaseSignal[T]{}`. -/
structure BaseSignal (W C T : Type) where
  subscribers : List (keyedListener W C T)
  subscribersMap : Option (KeyMap W C T)

/-- Comma-ok lookup `_, ok := s.subscribersMap[key]`; a nil map has no key. -/
def BaseSignal.hasKey {W C T : Type} (s : BaseSignal W C T) (key : String) : Bool :=
  match s.subscribersMap with
  | none => false
  | some m => (m key).isSome

/-- Value lookup `s.subscribersMap[key]`. -/
def BaseSignal.lookup {W C T : Type} (s : BaseSignal W C T) (key : String) :
    Option (ListenerExtended W C T) :=
  match s.subscribersMap with
  | none => none
  | some m => m key

/-- Result of a call that may panic. -/
inductive Step (α : Type) where
  | done (a : α)
  | panic (msg : String)

/-- Runtime panic of a write into a nil map. -/
def nilMapPanic : String := "assignment to entry in nil map"

/-- Runtime panic of a call through a nil function value. -/
def nilCallPanic : String :=
  "runtime error: invalid memory address or nil pointer dereference"

/-! ## Registry operations (`base_signal.go`) -/

/-- `BaseSignal.AddListener(handler, rollback, key...)`.  The variadic `key`
is a list; only `key[0]` is read.  Returns the `int` result and the
registry after the call. -/
def BaseSignal.AddListener {W C T : Type} (s : BaseSignal W C T)
    (handler rollback : Option (SignalListener W C T)) (key : List String) :
    Step (Int × BaseSignal W C T) :=
  let listener : ListenerExtended W C T := { handler := handler, rollback := rollback }
  match key with
  | k :: _ =>
    if s.hasKey k then
      .done (-1, s)
    else
      match s.subscribersMap with
      | none => .panic nilMapPanic
      | some m =>
        let subs := s.subscribers ++ [{ key := k, listener := listener }]
        .done ((subs.length : Int), { subscribers := subs, subscribersMap := some (m.insert k listener) })
  | [] =>
    let subs := s.subscribers ++ [{ key := "", listener := listener }]
    .done ((subs.length : Int), { subscribers := subs, subscribersMap := s.subscribersMap })

/-- The loop of `RemoveListener`: drop the first element whose key field
equals `key` (`append(subs[:i], subs[i+1:]...)` then `break`). -/
def removeFirst {W C T : Type} (key : String) :
    List (keyedListener W C T) → List (keyedListener W C T)
  | [] => []
  | sub :: rest => if sub.key = key then rest else sub :: removeFirst key rest

/-- `BaseSignal.RemoveListener(key)`. -/
def BaseSignal.RemoveListener {W C T : Type} (s : BaseSignal W C T) (key : String) :
    Int × BaseSignal W C T :=
  if s.hasKey key then
    match s.subscribersMap with
    | none => (-1, s)
    | some m =>
      let subs := removeFirst key s.subscribers
      ((subs.length : Int), { subscribers := subs, subscribersMap := some (m.delete key) })
  else
    (-1, s)

/-- `BaseSignal.Reset()`. -/
def BaseSignal.Reset {W C T : Type} (_s : BaseSignal W C T) : BaseSignal W C T :=
  { subscribers := [], subscribersMap := some KeyMap.empty }

/-- `BaseSignal.Len()`. -/
def BaseSignal.Len {W C T : Type} (s : BaseSignal W C T) : Int :=
  (s.subscribers.length : Int)

/-- `BaseSignal.IsEmpty()`. -/
def BaseSignal.IsEmpty {W C T : Type} (s : BaseSignal W C T) : Bool :=
  s.subscribers.length == 0

/-- Modelled from the spec: the constructors `New` and `NewSync` are not
among the sources; the spec has them "construct an empty signal", and the
tests add keyed listeners right after construction, so the key map is
initialised. -/
def BaseSignal.new {W C T : Type} : BaseSignal W C T :=
  { subscribers := [], subscribersMap := some KeyMap.empty }

/-- One mutating call on a registry. -/
inductive Op (W C T : Type) where
  | add (handler rollback : Option (SignalListener W C T)) (key : List String)
  | remove (key : String)
  | reset

/-- Run one mutating call; `none` when the call panics. -/
def BaseSignal.apply {W C T : Type} (s : BaseSignal W C T) : Op W C T → Option (BaseSignal W C T)
  | .add h r key =>
    match s.AddListener h r key with
    | .done (_, s') => some s'
    | .panic _ => none
  | .remove key => some (s.RemoveListener key).2
  | .reset => some s.Reset

/-- Run a sequence of mutating calls from left to right. -/
def BaseSignal.applyAll {W C T : Type} (s : BaseSignal W C T) :
    List (Op W C T) → Option (BaseSignal W C T)
  | [] => some s
  | op :: ops =>
    match s.apply op with
    | none => none
    | some s' => s'.applyAll ops

/-- States reachable from the empty registry by `AddListener`,
`RemoveListener` and `Reset`. -/
def Reachable {W C T : Type} (s : BaseSignal W C T) : Prop :=
  ∃ ops : List (Op W C T), (BaseSignal.new : BaseSignal W C T).applyAll ops = some s

/-! ## Emission (`signals_sync.go`, `signals_async.go`) -/

/-- Which field of the listener a call went through. -/
inductive Kind where
  | handler
  | rollback
  deriving DecidableEq, Repr

/-- One entry of the ghost trace: a call that was made through the handler
or the rollback of `subscribers[index]`, its arguments and what it returned. -/
structure Call (C T : Type) where
  kind : Kind
  index : Nat
  ctx : C
  payload : T
  result : Option GoError

/-- A call without the returned value: who was invoked, and with what. -/
def Call.sig {C T : Type} (c : Call C T) : Kind × Nat × C × T :=
  (c.kind, c.index, c.ctx, c.payload)

/-- The state an emission runs in: the captured variables of the listeners
and the calls made so far. -/
structure Run (W C T : Type) where
  world : W
  trace : List (Call C T)

/-- Call a (non-nil) listener function and record the call. -/
def Run.invoke {W C T : Type} (r : Run W C T) (kind : Kind) (index : Nat)
    (f : SignalListener W C T) (ctx : C) (payload : T) : Run W C T × Option GoError :=
  let out := f ctx payload r.world
  ({ world := out.1,
     trace := r.trace ++ [{ kind := kind, index := index, ctx := ctx, payload := payload,
                            result := out.2 }] },
   out.2)

/-- What `Emit` did: returned an `error` (possibly nil), or ended in a
panic.  For `AsyncSignal.Emit` the panic is the one of a goroutine it
started: it ends the program, and this is the outcome recorded even though
the deferred `wg.Done()` may let `Emit` itself get past `wg.Wait()` before
the program is gone. -/
inductive EmitResult where
  | returned (err : Option GoError)
  | panicked (msg : String)
  deriving DecidableEq, Repr

/-- The value `errors.New("there was an error emitting signal, rollback was called")`.
A `GoError` is the message only: each failing `Emit` makes a new value
with this text, and which allocation it is has no counterpart here. -/
def emitError : GoError :=
  { msg := "there was an error emitting signal, rollback was called" }

/-- Go struct `SyncSignal`: it embeds `BaseSignal`. -/
structure SyncSignal (W C T : Type) extends BaseSignal W C T

/-- Go struct `AsyncSignal`: it embeds `BaseSignal`.  The mutex field has no
counterpart here: one `Emit` is modelled at a time. -/
structure AsyncSignal (W C T : Type) extends BaseSignal W C T

/-- First loop of `SyncSignal.Emit`, from position `index` on: call the
handlers in slice order until one returns a non-nil error.  The result is
the value of `count` after the loop: `-1`, or the index of that handler. -/
def handlersLoop {W C T : Type} (ctx : C) (payload : T) :
    List (keyedListener W C T) → Nat → Run W C T → Run W C T × Step Int
  | [], _, r => (r, .done (-1))
  | sub :: rest, index, r =>
    match sub.listener.handler with
    | none => (r, .panic nilCallPanic)
    | some f =>
      let out := r.invoke .handler index f ctx payload
      if out.2.isSome then (out.1, .done (index : Int))
      else handlersLoop ctx payload rest (index + 1) out.1

/-- Second loop of `SyncSignal.Emit`, from position `index` on: call the
rollbacks in slice order and stop after the one at index `count`. -/
def rollbacksLoop {W C T : Type} (ctx : C) (payload : T) (count : Int) :
    List (keyedListener W C T) → Nat → Run W C T → Run W C T × Step Unit
  | [], _, r => (r, .done ())
  | sub :: rest, index, r =>
    match sub.listener.rollback with
    | none => (r, .panic nilCallPanic)
    | some f =>
      let out := r.invoke .rollback index f ctx payload
      if (index : Int) = count then (out.1, .done ())
      else rollbacksLoop ctx payload count rest (index + 1) out.1

/-- `SyncSignal.Emit(ctx, payload)`. -/
def SyncSignal.Emit {W C T : Type} (s : SyncSignal W C T) (ctx : C) (payload : T)
    (r : Run W C T) : Run W C T × EmitResult :=
  match handlersLoop ctx payload s.subscribers 0 r with
  | (r1, .panic msg) => (r1, .panicked msg)
  | (r1, .done count) =>
    if count = -1 then (r1, .returned none)
    else
      match rollbacksLoop ctx payload count s.subscribers 0 r1 with
      | (r2, .panic msg) => (r2, .panicked msg)
      | (r2, .done _) => (r2, .returned (some emitError))

/-- Successive `Emit` calls on one signal, one per payload; the results are
collected in call order.  A panic ends the sequence. -/
def SyncSignal.emitAll {W C T : Type} (s : SyncSignal W C T) (ctx : C) :
    List T → Run W C T → Run W C T × List EmitResult
  | [], r => (r, [])
  | p :: ps, r =>
    match s.Emit ctx p r with
    | (r1, .panicked msg) => (r1, [.panicked msg])
    | (r1, .returned err) =>
      let out := s.emitAll ctx ps r1
      (out.1, .returned err :: out.2)

/-- Go struct `errorList` (its mutex has no counterpart here). -/
structure errorList where
  errors : List (Option GoError)

/-- `errorList.add(err)`. -/
def errorList.add (e : errorList) (err : Option GoError) : errorList :=
  { errors := e.errors ++ [err] }

/-- `errorList.error()`: is some recorded error non-nil. -/
def errorList.error (e : errorList) : Bool :=
  e.errors.any Option.isSome

/-- The handler goroutines of `AsyncSignal.Emit`.  Each goroutine (call the
handler, then `errCh.add`) is one atomic step; `order` lists the indices of
the subscriptions in the order in which their goroutines run.  An index
outside the slice names no goroutine.  A panic in a goroutine ends the
program. -/
def handlerTasks {W C T : Type} (ctx : C) (payload : T) (subs : List (keyedListener W C T)) :
    List Nat → Run W C T → errorList → Run W C T × Step errorList
  | [], r, e => (r, .done e)
  | j :: js, r, e =>
    match subs[j]? with
    | none => handlerTasks ctx payload subs js r e
    | some sub =>
      match sub.listener.handler with
      | none => (r, .panic nilCallPanic)
      | some f =>
        let out := r.invoke .handler j f ctx payload
        handlerTasks ctx payload subs js out.1 (e.add out.2)

/-- The rollback goroutines of `AsyncSignal.Emit`, run in the given order. -/
def rollbackTasks {W C T : Type} (ctx : C) (payload : T) (subs : List (keyedListener W C T)) :
    List Nat → Run W C T → Run W C T × Step Unit
  | [], r => (r, .done ())
  | j :: js, r =>
    match subs[j]? with
    | none => rollbackTasks ctx payload subs js r
    | some sub =>
      match sub.listener.rollback with
      | none => (r, .panic nilCallPanic)
      | some f =>
        let out := r.invoke .rollback j f ctx payload
        rollbackTasks ctx payload subs js out.1

/-- `AsyncSignal.Emit(ctx, payload)`; `hOrder` and `rOrder` are the orders
in which the handler goroutines and the rollback goroutines run.  A panic
of a goroutine is the outcome of the whole call (see `EmitResult`). -/
def AsyncSignal.Emit {W C T : Type} (s : AsyncSignal W C T) (ctx : C) (payload : T)
    (hOrder rOrder : List Nat) (r : Run W C T) : Run W C T × EmitResult :=
  let errCh : errorList := { errors := List.replicate s.subscribers.length none }
  match handlerTasks ctx payload s.subscribers hOrder r errCh with
  | (r1, .panic msg) => (r1, .panicked msg)
  | (r1, .done errs) =>
    if !errs.error then (r1, .returned none)
    else
      match rollbackTasks ctx payload s.subscribers rOrder r1 with
      | (r2, .panic msg) => (r2, .panicked msg)
      | (r2, .done _) => (r2, .returned (some emitError))

/-- The captured variables after the handlers of `subs` ran one after the
other (a nil handler is not run). -/
def handlersWorld {W C T : Type} (ctx : C) (payload : T) :
    List (keyedListener W C T) → W → W
  | [], w => w
  | sub :: rest, w =>
    match sub.listener.handler with
    | none => handlersWorld ctx payload rest w
    | some f => handlersWorld ctx payload rest (f ctx payload w).1

/-- The captured variables after the rollbacks of `subs` ran one after the
other (a nil rollback is not run). -/
def rollbacksWorld {W C T : Type} (ctx : C) (payload : T) :
    List (keyedListener W C T) → W → W
  | [], w => w
  | sub :: rest, w =>
    match sub.listener.rollback with
    | none => rollbacksWorld ctx payload rest w
    | some f => rollbacksWorld ctx payload rest (f ctx payload w).1

/-- What the handler at index `j` returns when handlers `0..j-1` ran before
it, starting from `w`; `none` when there is no such handler. -/
def handlerReturn {W C T : Type} (ctx : C) (payload : T) (subs : List (keyedListener W C T))
    (w : W) (j : Nat) : Option (Option GoError) :=
  match subs[j]? with
  | none => none
  | some sub =>
    match sub.listener.handler with
    | none => none
    | some f => some (f ctx payload (handlersWorld ctx payload (subs.take j) w)).2

/-- The calls through `kind` at the positions `0..n-1`, in ascending order. -/
def callSigs {C T : Type} (kind : Kind) (ctx : C) (payload : T) (n : Nat) :
    List (Kind × Nat × C × T) :=
  (List.range n).map (fun j => (kind, j, ctx, payload))

/-! ## Listeners of `signals_test.go`

The captured variable of the test closures is the slice `results`. -/

/-- The handler of `TestSignal`: append the payload to `results`, return nil. -/
def recordHandler : SignalListener (List Nat) Unit Nat :=
  fun _ v results => (results ++ [v], none)

/-- The first handler of `TestSignalRollback`: return `errors.New("error")`. -/
def failingHandler : SignalListener (List Nat) Unit Nat :=
  fun _ _ results => (results, some { msg := "error" })

/-- The rollback of `TestSignalRollback`: append the payload to `results`. -/
def recordRollback : SignalListener (List Nat) Unit Nat :=
  fun _ v results => (results ++ [v], none)

/-- A handler that reads a captured variable: it returns an error when
`results` is not empty. -/
def guardHandler : SignalListener (List Nat) Unit Nat :=
  fun _ _ results => (results, if results = [] then none else some { msg := "busy" })

/-- The signal of `TestSignal`: two recording handlers, no rollbacks. -/
def testSignal : SyncSignal (List Nat) Unit Nat :=
  { subscribers := [{ key := "", listener := ⟨some recordHandler, none⟩ },
                    { key := "", listener := ⟨some recordHandler, none⟩ }],
    subscribersMap := some KeyMap.empty }

/-- The signal of `TestSignalRollback`: a failing handler with a rollback,
then a recording handler without one. -/
def rollbackSignal : SyncSignal (List Nat) Unit Nat :=
  { subscribers := [{ key := "", listener := ⟨some failingHandler, some recordRollback⟩ },
                    { key := "", listener := ⟨some recordHandler, none⟩ }],
    subscribersMap := some KeyMap.empty }

/-- The listeners of `TestSignalRollback` registered in the other order. -/
def rollbackSignalSwapped : SyncSignal (List Nat) Unit Nat :=
  { subscribers := [{ key := "", listener := ⟨some recordHandler, none⟩ },
                    { key := "", listener := ⟨some failingHandler, some recordRollback⟩ }],
    subscribersMap := some KeyMap.empty }

/-- A signal with one listener: a failing handler and no rollback. -/
def noRollbackSignal : SyncSignal (List Nat) Unit Nat :=
  { subscribers := [{ key := "", listener := ⟨some failingHandler, none⟩ }],
    subscribersMap := some KeyMap.empty }

/-- The signal of `TestSignalAsyncRollback`: the first handler fails, the
second succeeds, both listeners have a rollback. -/
def asyncRollbackSignal : AsyncSignal (List Nat) Unit Nat :=
  { subscribers := [{ key := "", listener := ⟨some failingHandler, some recordRollback⟩ },
                    { key := "", listener := ⟨some recordHandler, some recordRollback⟩ }],
    subscribersMap := some KeyMap.empty }

/-- The listeners of `TestSignalRollback` on an `AsyncSignal`: the second
listener has no rollback. -/
def asyncNoRollbackSignal : AsyncSignal (List Nat) Unit Nat :=
  { subscribers := [{ key := "", listener := ⟨some failingHandler, some recordRollback⟩ },
                    { key := "", listener := ⟨some recordHandler, none⟩ }],
    subscribersMap := some KeyMap.empty }

/-- An `AsyncSignal` with one listener registered by `AddListener(nil, nil)`. -/
def asyncNilHandlerSignal : AsyncSignal (List Nat) Unit Nat :=
  { subscribers := [{ key := "", listener := ⟨none, none⟩ }],
    subscribersMap := some KeyMap.empty }

/-- An `AsyncSignal` whose second handler reads what the first one writes. -/
def asyncGuardSignal : AsyncSignal (List Nat) Unit Nat :=
  { subscribers := [{ key := "", listener := ⟨some recordHandler, some recordRollback⟩ },
                    { key := "", listener := ⟨some guardHandler, some recordRollback⟩ }],
    subscribersMap := some KeyMap.empty }

/-- The run a test starts in: `results` is empty and nothing was called. -/
def freshRun : Run (List Nat) Unit Nat := { world := [], trace := [] }

/-- The registry after `New()`, `AddListener(recordHandler, nil)` and
`AddListener(failingHandler, nil, "")`, as a sequence of calls. -/
def emptyKeyOps : List (Op (List Nat) Unit Nat) :=
  [.add (some recordHandler) none [], .add (some failingHandler) none [""]]

/-! ## The abstract base, the receiver and related registries -/

/-- The value the abstract base panics with. -/
def implementMePanic : String := "implement me in derived type"

/-- `BaseSignal.Emit(ctx, payload)`: the body is one `panic` statement. -/
def BaseSignal.Emit {W C T : Type} (_s : BaseSignal W C T) (_ctx : C) (_payload : T)
    (r : Run W C T) : Run W C T × EmitResult :=
  (r, .panicked implementMePanic)

/-- The zero value `BaseSignal[T]{}`: nil slice, nil map. -/
def BaseSignal.zero {W C T : Type} : BaseSignal W C T :=
  { subscribers := [], subscribersMap := none }

/-- Everything a method with a pointer receiver can read and write: the
signal it is called on and the run. -/
structure Receiver (S W C T : Type) where
  signal : S
  run : Run W C T

/-- `SyncSignal.Emit` as a transformer of signal and run together.  Each
loop reads `s.subscribers` when it starts; no statement of the method
assigns to a field of `s`. -/
def SyncSignal.EmitOn {W C T : Type} (ctx : C) (payload : T)
    (st : Receiver (SyncSignal W C T) W C T) :
    Receiver (SyncSignal W C T) W C T × EmitResult :=
  match handlersLoop ctx payload st.signal.subscribers 0 st.run with
  | (r1, .panic msg) => ({ signal := st.signal, run := r1 }, .panicked msg)
  | (r1, .done count) =>
    if count = -1 then ({ signal := st.signal, run := r1 }, .returned none)
    else
      match rollbacksLoop ctx payload count st.signal.subscribers 0 r1 with
      | (r2, .panic msg) => ({ signal := st.signal, run := r2 }, .panicked msg)
      | (r2, .done _) => ({ signal := st.signal, run := r2 }, .returned (some emitError))

/-- `AsyncSignal.Emit` as a transformer of signal and run together. -/
def AsyncSignal.EmitOn {W C T : Type} (ctx : C) (payload : T) (hOrder rOrder : List Nat)
    (st : Receiver (AsyncSignal W C T) W C T) :
    Receiver (AsyncSignal W C T) W C T × EmitResult :=
  let errCh : errorList := { errors := List.replicate st.signal.subscribers.length none }
  match handlerTasks ctx payload st.signal.subscribers hOrder st.run errCh with
  | (r1, .panic msg) => ({ signal := st.signal, run := r1 }, .panicked msg)
  | (r1, .done errs) =>
    if !errs.error then ({ signal := st.signal, run := r1 }, .returned none)
    else
      match rollbackTasks ctx payload st.signal.subscribers rOrder r1 with
      | (r2, .panic msg) => ({ signal := st.signal, run := r2 }, .panicked msg)
      | (r2, .done _) => ({ signal := st.signal, run := r2 }, .returned (some emitError))

/-- The error collection of `AsyncSignal.Emit` at the first `wg.Wait()`:
`errCh` as made by the composite literal, after the handler goroutines ran
in the given order; `none` when a goroutine panicked. -/
def AsyncSignal.errorsAfterHandlers {W C T : Type} (s : AsyncSignal W C T) (ctx : C)
    (payload : T) (hOrder : List Nat) (r : Run W C T) : Option (List (Option GoError)) :=
  match handlerTasks ctx payload s.subscribers hOrder r
      { errors := List.replicate s.subscribers.length none } with
  | (_, .panic _) => none
  | (_, .done errs) => some errs.errors

/-- Two rollback fields that differ at most in the error they return: both
nil, or both functions that leave the captured variables in the same state. -/
def sameRollbackEffect {W C T : Type} :
    Option (SignalListener W C T) → Option (SignalListener W C T) → Prop
  | none, none => True
  | some f, some g => ∀ ctx payload w, (f ctx payload w).1 = (g ctx payload w).1
  | _, _ => False

/-- Two subscriber slices that differ at most in the errors their rollbacks
return: same length, and position by position the same key, the same
handler, and rollbacks with the same effect. -/
def rollbackVariant {W C T : Type} :
    List (keyedListener W C T) → List (keyedListener W C T) → Prop
  | [], [] => True
  | a :: as, b :: bs =>
    a.key = b.key ∧ a.listener.handler = b.listener.handler ∧
    sameRollbackEffect a.listener.rollback b.listener.rollback ∧ rollbackVariant as bs
  | _, _ => False

/-- A rollback that records the payload like `recordRollback` and returns an error. -/
def failingRollback : SignalListener (List Nat) Unit Nat :=
  fun _ v results => (results ++ [v], some { msg := "rollback failed" })

/-- The signal of `TestSignalRollback` with a rollback that returns an error. -/
def rollbackSignalFailing : SyncSignal (List Nat) Unit Nat :=
  { subscribers := [{ key := "", listener := ⟨some failingHandler, some failingRollback⟩ },
                    { key := "", listener := ⟨some recordHandler, none⟩ }],
    subscribersMap := some KeyMap.empty }

/-- The registration of the doc comment of `AddListener`, a handler with a
nil rollback under `"key1"`, on a `SyncSignal`; the handler returns an error. -/
def docExampleSignal : SyncSignal (List Nat) Unit Nat :=
  { subscribers := [{ key := "key1", listener := ⟨some failingHandler, none⟩ }],
    subscribersMap := some (KeyMap.empty.insert "key1" ⟨some failingHandler, none⟩) }

/-- Both listeners of `TestSignalAsyncRollback` on a `SyncSignal`. -/
def bothRollbackSignal : SyncSignal (List Nat) Unit Nat :=
  { subscribers := asyncRollbackSignal.subscribers,
    subscribersMap := some KeyMap.empty }

/-- The calls of `TestAddRemoveListener/AddListener` that succeed: one
unkeyed add, one add under `"test-key"`. -/
def testKeyOps : List (Op (List Nat) Unit Nat) :=
  [.add (some recordHandler) none [], .add (some recordHandler) none ["test-key"]]

/-- The registry those calls leave. -/
def testKeyState : BaseSignal (List Nat) Unit Nat :=
  { subscribers := [{ key := "", listener := ⟨some recordHandler, none⟩ },
                    { key := "test-key", listener := ⟨some recordHandler, none⟩ }],
    subscribersMap := some (KeyMap.empty.insert "test-key" ⟨some recordHandler, none⟩) }

/-- The registry after the unkeyed add of `TestAddRemoveListener`. -/
def oneUnkeyedState : BaseSignal (List Nat) Unit Nat :=
  { subscribers := [{ key := "", listener := ⟨some recordHandler, none⟩ }],
    subscribersMap := some KeyMap.empty }

/-- A failing handler followed by a listener registered with a nil handler;
both rollbacks are present. -/
def nilSecondHandlerSubscribers : List (keyedListener (List Nat) Unit Nat) :=
  [{ key := "", listener := ⟨some failingHandler, some recordRollback⟩ },
   { key := "", listener := ⟨none, some recordRollback⟩ }]

/-- Those subscribers on a `SyncSignal`. -/
def nilSecondHandlerSync : SyncSignal (List Nat) Unit Nat :=
  { subscribers := nilSecondHandlerSubscribers, subscribersMap := some KeyMap.empty }

/-- Those subscribers on an `AsyncSignal`. -/
def nilSecondHandlerAsync : AsyncSignal (List Nat) Unit Nat :=
  { subscribers := nilSecondHandlerSubscribers, subscribersMap := some KeyMap.empty }

end Signals

namespace Signals

/-! ## Registry: basic facts -/

theorem hasKey_eq_isSome_lookup {W C T : Type} (s : BaseSignal W C T) (k : String) :
    s.hasKey k = (s.lookup k).isSome := by
  unfold BaseSignal.hasKey BaseSignal.lookup
  cases s.subscribersMap <;> rfl

theorem hasKey_of_map {W C T : Type} (s : BaseSignal W C T) (m : KeyMap W C T)
    (hm : s.subscribersMap = some m) (k : String) : s.hasKey k = (m k).isSome := by
  unfold BaseSignal.hasKey
  rw [hm]

theorem map_of_hasKey {W C T : Type} (s : BaseSignal W C T) (k : String)
    (hk : s.hasKey k = true) : ∃ m, s.subscribersMap = some m ∧ (m k).isSome = true := by
  unfold BaseSignal.hasKey at hk
  cases hm : s.subscribersMap with
  | none => rw [hm] at hk; exact absurd hk Bool.false_ne_true
  | some m => rw [hm] at hk; exact ⟨m, rfl, hk⟩

/-! ## C4: duplicate key -/

/-- C4. Duplicate key rejection: when the key is already in the key map,
`AddListener` returns -1 and the registry after the call is the registry
before it: same ordered sequence, same key map, same `Len()`, and the
listener stored under the key is still the one that was there. -/
theorem addListener_duplicate_key {W C T : Type} (s : BaseSignal W C T)
    (handler rollback : Option (SignalListener W C T)) (k : String) (ks : List String)
    (hk : s.hasKey k = true) :
    ∃ s', s.AddListener handler rollback (k :: ks) = .done (-1, s') ∧
      s'.subscribers = s.subscribers ∧ s'.subscribersMap = s.subscribersMap ∧
      s'.Len = s.Len ∧ s'.lookup k = s.lookup k := by
  refine ⟨s, ?_, rfl, rfl, rfl, rfl⟩
  simp [BaseSignal.AddListener, hk]

/-- C4 at the registry of `TestAddRemoveListener`: a second add under
`"test-key"` is rejected. -/
theorem addListener_duplicate_key_witness :
    ∃ s', (({ subscribers := [{ key := "test-key", listener := ⟨some recordHandler, none⟩ }],
              subscribersMap := some (KeyMap.empty.insert "test-key" ⟨some recordHandler, none⟩) } :
            BaseSignal (List Nat) Unit Nat).AddListener (some failingHandler) none ["test-key"])
        = .done (-1, s') ∧
      s'.subscribers = [{ key := "test-key", listener := ⟨some recordHandler, none⟩ }] ∧
      s'.subscribersMap = some (KeyMap.empty.insert "test-key" ⟨some recordHandler, none⟩) ∧
      s'.Len = 1 ∧ s'.lookup "test-key" = some ⟨some recordHandler, none⟩ :=
  addListener_duplicate_key _ (some failingHandler) none "test-key" [] (by decide)

/-! ## C5: successful add -/

/-- C5. Successful add: on a registry with an initialised key map,
`AddListener` with no key, or with a key that is not in the map, returns
the previous `Len()` plus 1, which is the new `Len()`; the new sequence is
the old one followed by the new subscription; an unkeyed add leaves the
map as it was and a keyed add changes the map at that key only, where it
now holds the new listener.  On every registry (a nil map included) an
unkeyed add returns the previous `Len()` plus 1, never -1. -/
theorem addListener_success {W C T : Type} (s : BaseSignal W C T) (m : KeyMap W C T)
    (hm : s.subscribersMap = some m)
    (handler rollback : Option (SignalListener W C T)) (key : List String)
    (hkey : ∀ k ks, key = k :: ks → s.hasKey k = false) :
    (∃ s', s.AddListener handler rollback key = .done (s.Len + 1, s') ∧
      s'.subscribers = s.subscribers ++
        [{ key := key.headD "", listener := { handler := handler, rollback := rollback } }] ∧
      s'.Len = s.Len + 1 ∧
      (key = [] → s'.subscribersMap = s.subscribersMap) ∧
      (∀ k ks, key = k :: ks →
        s'.hasKey k = true ∧
        s'.lookup k = some { handler := handler, rollback := rollback } ∧
        ∀ k', k' ≠ k → s'.lookup k' = s.lookup k')) ∧
    (∀ s0 : BaseSignal W C T, ∃ s1, s0.AddListener handler rollback [] = .done (s0.Len + 1, s1) ∧
      s0.Len + 1 ≠ -1) := by
  constructor
  · cases key with
    | nil =>
      refine ⟨⟨s.subscribers ++ [⟨"", ⟨handler, rollback⟩⟩], s.subscribersMap⟩,
        ?_, rfl, ?_, fun _ => rfl, ?_⟩
      · simp [BaseSignal.AddListener, BaseSignal.Len]
      · simp [BaseSignal.Len]
      · intro k ks h; cases h
    | cons k ks =>
      have hk := hkey k ks rfl
      refine ⟨⟨s.subscribers ++ [⟨k, ⟨handler, rollback⟩⟩],
        some (m.insert k ⟨handler, rollback⟩)⟩, ?_, rfl, ?_, ?_, ?_⟩
      · simp [BaseSignal.AddListener, BaseSignal.Len, hk, hm]
      · simp [BaseSignal.Len]
      · intro h; cases h
      · intro k1 ks1 h
        cases h
        refine ⟨?_, ?_, ?_⟩
        · simp [BaseSignal.hasKey, KeyMap.insert]
        · simp [BaseSignal.lookup, KeyMap.insert]
        · intro k' hne
          simp [BaseSignal.lookup, KeyMap.insert, hne, hm]
  · intro s0
    refine ⟨⟨s0.subscribers ++ [⟨"", ⟨handler, rollback⟩⟩], s0.subscribersMap⟩, ?_, ?_⟩
    · simp [BaseSignal.AddListener, BaseSignal.Len]
    · unfold BaseSignal.Len
      omega

/-- C5 at the registry of `TestAddRemoveListener`: after one unkeyed
listener, the add under `"test-key"` returns 2. -/
theorem addListener_success_witness :
    (∃ s', (({ subscribers := [{ key := "", listener := ⟨some recordHandler, none⟩ }],
               subscribersMap := some KeyMap.empty } :
             BaseSignal (List Nat) Unit Nat).AddListener (some recordHandler) none ["test-key"])
         = .done (1 + 1, s') ∧
      s'.subscribers = [{ key := "", listener := ⟨some recordHandler, none⟩ }] ++
        [{ key := "test-key", listener := ⟨some recordHandler, none⟩ }] ∧
      s'.Len = 1 + 1 ∧
      (["test-key"] = ([] : List String) → s'.subscribersMap = some KeyMap.empty) ∧
      (∀ k ks, ["test-key"] = k :: ks →
        s'.hasKey k = true ∧
        s'.lookup k = some ⟨some recordHandler, none⟩ ∧
        ∀ k', k' ≠ k →
          s'.lookup k' = ({ subscribers := [{ key := "", listener := ⟨some recordHandler, none⟩ }],
                            subscribersMap := some KeyMap.empty } :
                          BaseSignal (List Nat) Unit Nat).lookup k')) ∧
    (∀ s0 : BaseSignal (List Nat) Unit Nat,
      ∃ s1, s0.AddListener (some recordHandler) none [] = .done (s0.Len + 1, s1) ∧
        s0.Len + 1 ≠ -1) :=
  addListener_success _ KeyMap.empty rfl (some recordHandler) none ["test-key"]
    (by intro k ks h; cases h; decide)

/-! ## C7: removal of an absent key -/

/-- C7. Removal of an absent key: when the key is not in the key map
(a nil map has no key), `RemoveListener` returns -1 and the registry after
the call is the registry before it, so `Len()` is the same; and after a
`RemoveListener(k)` that found its key, a second `RemoveListener(k)`
returns -1 and changes nothing. -/
theorem removeListener_absent_key {W C T : Type} (s : BaseSignal W C T) (k : String)
    (hk : s.hasKey k = false) :
    s.RemoveListener k = (-1, s) ∧ (s.RemoveListener k).2.Len = s.Len ∧
    (∀ s0 : BaseSignal W C T, s0.hasKey k = true →
      (s0.RemoveListener k).1 ≠ -1 ∧
      (s0.RemoveListener k).2.RemoveListener k = (-1, (s0.RemoveListener k).2)) := by
  have h1 : s.RemoveListener k = (-1, s) := by simp [BaseSignal.RemoveListener, hk]
  refine ⟨h1, by rw [h1], ?_⟩
  intro s0 h0
  obtain ⟨m, hm, _⟩ := map_of_hasKey s0 k h0
  have h2 : s0.RemoveListener k =
      (((removeFirst k s0.subscribers).length : Int),
        { subscribers := removeFirst k s0.subscribers, subscribersMap := some (m.delete k) }) := by
    simp [BaseSignal.RemoveListener, h0, hm]
  rw [h2]
  refine ⟨by simp only; omega, ?_⟩
  simp [BaseSignal.RemoveListener, BaseSignal.hasKey, KeyMap.delete]

/-- C7 at the empty registry: removing `"test-key"` returns -1. -/
theorem removeListener_absent_key_witness :
    (BaseSignal.new : BaseSignal (List Nat) Unit Nat).RemoveListener "test-key"
        = (-1, BaseSignal.new) ∧
      ((BaseSignal.new : BaseSignal (List Nat) Unit Nat).RemoveListener "test-key").2.Len
        = (BaseSignal.new : BaseSignal (List Nat) Unit Nat).Len ∧
      (∀ s0 : BaseSignal (List Nat) Unit Nat, s0.hasKey "test-key" = true →
        (s0.RemoveListener "test-key").1 ≠ -1 ∧
        (s0.RemoveListener "test-key").2.RemoveListener "test-key"
          = (-1, (s0.RemoveListener "test-key").2)) :=
  removeListener_absent_key BaseSignal.new "test-key" (by decide)

/-! ## C8: reset -/

/-- C8. Reset clears state: after `Reset()` the ordered sequence is empty
and the key map is the empty map, whatever the registry was; `Len()` is 0
and `IsEmpty()` is true; an add under any key is accepted (it returns 1,
not -1); and a second `Reset()` gives the same state as the first. -/
theorem reset_clears {W C T : Type} (s : BaseSignal W C T) :
    s.Reset.subscribers = [] ∧ s.Reset.subscribersMap = some KeyMap.empty ∧
    (∀ k, s.Reset.hasKey k = false) ∧
    s.Reset.Len = 0 ∧ s.Reset.IsEmpty = true ∧
    (∀ (handler rollback : Option (SignalListener W C T)) (k : String) (ks : List String),
      ∃ s', s.Reset.AddListener handler rollback (k :: ks) = .done (1, s') ∧ s'.hasKey k = true) ∧
    s.Reset.Reset = s.Reset := by
  refine ⟨rfl, rfl, fun _ => rfl, rfl, rfl, ?_, rfl⟩
  intro handler rollback k ks
  refine ⟨⟨[⟨k, ⟨handler, rollback⟩⟩], some (KeyMap.empty.insert k ⟨handler, rollback⟩)⟩, ?_, ?_⟩
  · simp [BaseSignal.AddListener, BaseSignal.Reset, BaseSignal.hasKey, KeyMap.empty]
  · simp [BaseSignal.hasKey, KeyMap.insert]

/-! ## C6, C9: the empty string as a key -/

/-- C6, evaluated where it fails.  After `AddListener(recordHandler, nil)`
(no key) and `AddListener(failingHandler, nil, "")` the key `""` is in the
map; `RemoveListener("")` returns 1 and removes the listener that was added
without a key: the listener added under `""` is the one that stays. -/
theorem removeListener_empty_key_drops_unkeyed :
    ∃ s, (BaseSignal.new : BaseSignal (List Nat) Unit Nat).applyAll emptyKeyOps = some s ∧
      s.hasKey "" = true ∧
      s.subscribers = [{ key := "", listener := ⟨some recordHandler, none⟩ },
                       { key := "", listener := ⟨some failingHandler, none⟩ }] ∧
      (s.RemoveListener "").1 = 1 ∧
      (s.RemoveListener "").2.subscribers
        = [{ key := "", listener := ⟨some failingHandler, none⟩ }] ∧
      (recordHandler () 0 []).2 ≠ (failingHandler () 0 []).2 := by
  refine ⟨⟨[⟨"", ⟨some recordHandler, none⟩⟩, ⟨"", ⟨some failingHandler, none⟩⟩],
    some ((KeyMap.empty.insert "" ⟨some failingHandler, none⟩))⟩, ?_, ?_, rfl, ?_, ?_, ?_⟩
  · rfl
  · decide
  · decide
  · rfl
  · decide

/-- C9, evaluated where it fails.  Run, from the empty registry,
`AddListener(recordHandler, nil)` (no key), `AddListener(failingHandler, nil, "")`
and `RemoveListener("")`.  After the two adds the map holds the listener
added under `""`; after the removal the sequence still holds that listener,
the one entry that was added with a key, and the key map has no entry for
its key, while the listener added without a key is gone. -/
theorem reachable_keyed_entry_without_map_entry :
    ∃ s0 s : BaseSignal (List Nat) Unit Nat,
      (BaseSignal.new : BaseSignal (List Nat) Unit Nat).applyAll emptyKeyOps = some s0 ∧
      s0.lookup "" = some ⟨some failingHandler, none⟩ ∧
      (BaseSignal.new : BaseSignal (List Nat) Unit Nat).applyAll
          (emptyKeyOps ++ [.remove ""]) = some s ∧
      s = (s0.RemoveListener "").2 ∧
      Reachable s ∧
      s.subscribers = [{ key := "", listener := ⟨some failingHandler, none⟩ }] ∧
      s.hasKey "" = false ∧ s.lookup "" = none ∧
      (recordHandler () 0 []).2 ≠ (failingHandler () 0 []).2 := by
  refine ⟨⟨[⟨"", ⟨some recordHandler, none⟩⟩, ⟨"", ⟨some failingHandler, none⟩⟩],
      some (KeyMap.empty.insert "" ⟨some failingHandler, none⟩)⟩,
    ⟨[⟨"", ⟨some failingHandler, none⟩⟩],
      some ((KeyMap.empty.insert "" ⟨some failingHandler, none⟩).delete "")⟩,
    ?_, ?_, ?_, ?_, ⟨emptyKeyOps ++ [.remove ""], ?_⟩, rfl, ?_, ?_, ?_⟩
  · rfl
  · rfl
  · rfl
  · rfl
  · rfl
  · decide
  · rfl
  · decide

/-! ## Sequential emission: the two loops -/

section Sync

variable {W C T : Type}

theorem handlerReturn_zero (ctx : C) (payload : T) (sub : keyedListener W C T)
    (rest : List (keyedListener W C T)) (w : W) :
    handlerReturn ctx payload (sub :: rest) w 0
      = sub.listener.handler.map (fun f => (f ctx payload w).2) := by
  unfold handlerReturn
  cases h : sub.listener.handler <;> simp [h, handlersWorld]

theorem handlerReturn_succ (ctx : C) (payload : T) (sub : keyedListener W C T)
    (f : SignalListener W C T) (hf : sub.listener.handler = some f)
    (rest : List (keyedListener W C T)) (w : W) (j : Nat) :
    handlerReturn ctx payload (sub :: rest) w (j + 1)
      = handlerReturn ctx payload rest (f ctx payload w).1 j := by
  unfold handlerReturn
  simp [List.getElem?_cons_succ, List.take_succ_cons, handlersWorld, hf]

theorem shifted_range (kind : Kind) (ctx : C) (payload : T) (k n : Nat) :
    (kind, k, ctx, payload) ::
        (List.range n).map (fun j => (kind, k + 1 + j, ctx, payload))
      = (List.range (n + 1)).map (fun j => (kind, k + j, ctx, payload)) := by
  rw [List.range_succ_eq_map]
  simp only [List.map_cons, List.map_map, Nat.add_zero]
  congr 1
  apply List.map_congr_left
  intro j _
  simp only [Function.comp, Nat.succ_eq_add_one]
  congr 2
  omega

/-- The handler loop when the handlers before position `i` return nil and
the one at position `i` returns an error: it stops there, with `count` the
index of that handler, having called exactly the handlers up to it. -/
theorem handlersLoop_first_failure (ctx : C) (payload : T) :
    ∀ (subs : List (keyedListener W C T)) (k : Nat) (r : Run W C T) (i : Nat),
      (∀ j, j < i → handlerReturn ctx payload subs r.world j = some none) →
      (∃ e, handlerReturn ctx payload subs r.world i = some (some e)) →
      ∃ calls, handlersLoop ctx payload subs k r
          = ({ world := handlersWorld ctx payload (subs.take (i + 1)) r.world,
               trace := r.trace ++ calls }, .done ((k + i : Nat) : Int)) ∧
        calls.map Call.sig = (List.range (i + 1)).map (fun j => (Kind.handler, k + j, ctx, payload))
  | [], _, r, i, _, hfail => by
    obtain ⟨e, he⟩ := hfail
    simp [handlerReturn] at he
  | sub :: rest, k, r, 0, _, hfail => by
    obtain ⟨e, he⟩ := hfail
    rw [handlerReturn_zero] at he
    cases hf : sub.listener.handler with
    | none => rw [hf] at he; cases he
    | some f =>
      rw [hf] at he
      simp only [Option.map_some', Option.some.injEq] at he
      refine ⟨[{ kind := .handler, index := k, ctx := ctx, payload := payload,
                 result := (f ctx payload r.world).2 }], ?_, ?_⟩
      · simp [handlersLoop, hf, Run.invoke, he, handlersWorld]
      · simp [Call.sig, List.range_succ]
  | sub :: rest, k, r, i + 1, hok, hfail => by
    have h0 := hok 0 (Nat.succ_pos i)
    rw [handlerReturn_zero] at h0
    cases hf : sub.listener.handler with
    | none => rw [hf] at h0; cases h0
    | some f =>
      rw [hf] at h0
      simp only [Option.map_some', Option.some.injEq] at h0
      have hok' : ∀ j, j < i →
          handlerReturn ctx payload rest (f ctx payload r.world).1 j = some none := by
        intro j hj
        rw [← handlerReturn_succ ctx payload sub f hf rest r.world j]
        exact hok (j + 1) (Nat.succ_lt_succ hj)
      have hfail' : ∃ e,
          handlerReturn ctx payload rest (f ctx payload r.world).1 i = some (some e) := by
        obtain ⟨e, he⟩ := hfail
        exact ⟨e, by rw [← handlerReturn_succ ctx payload sub f hf rest r.world i]; exact he⟩
      obtain ⟨calls, hloop, hsig⟩ :=
        handlersLoop_first_failure ctx payload rest (k + 1)
          (r.invoke .handler k f ctx payload).1 i hok' hfail'
      refine ⟨{ kind := .handler, index := k, ctx := ctx, payload := payload,
                result := (f ctx payload r.world).2 } :: calls, ?_, ?_⟩
      · simp only [handlersLoop, hf, Run.invoke, h0, Option.isSome_none, Bool.false_eq_true,
          if_false]
        simp only [Run.invoke, h0] at hloop
        rw [hloop]
        simp [handlersWorld, hf, List.take_succ_cons, Nat.add_assoc, Nat.add_comm 1 i]
      · simp only [List.map_cons, hsig, Call.sig]
        exact shifted_range Kind.handler ctx payload k (i + 1)

/-- The handler loop when every handler returns nil: all of them are
called, in slice order, and `count` stays -1. -/
theorem handlersLoop_all_nil (ctx : C) (payload : T) :
    ∀ (subs : List (keyedListener W C T)) (k : Nat) (r : Run W C T),
      (∀ sub ∈ subs, ∃ f, sub.listener.handler = some f ∧ ∀ w, (f ctx payload w).2 = none) →
      ∃ calls, handlersLoop ctx payload subs k r
          = ({ world := handlersWorld ctx payload subs r.world,
               trace := r.trace ++ calls }, .done (-1)) ∧
        calls.map Call.sig
          = (List.range subs.length).map (fun j => (Kind.handler, k + j, ctx, payload))
  | [], _, r, _ => ⟨[], by simp [handlersLoop, handlersWorld], by simp⟩
  | sub :: rest, k, r, hnil => by
    obtain ⟨f, hf, hres⟩ := hnil sub (List.mem_cons_self _ _)
    obtain ⟨calls, hloop, hsig⟩ :=
      handlersLoop_all_nil ctx payload rest (k + 1) (r.invoke .handler k f ctx payload).1
        (fun sub' hmem => hnil sub' (List.mem_cons_of_mem _ hmem))
    refine ⟨{ kind := .handler, index := k, ctx := ctx, payload := payload,
              result := (f ctx payload r.world).2 } :: calls, ?_, ?_⟩
    · simp only [handlersLoop, hf, Run.invoke, hres, Option.isSome_none, Bool.false_eq_true,
        if_false]
      simp only [Run.invoke, hres] at hloop
      rw [hloop]
      simp [handlersWorld, hf]
    · simp only [List.map_cons, hsig, Call.sig, List.length_cons]
      exact shifted_range Kind.handler ctx payload k rest.length

/-- The rollback loop when the rollbacks at positions `0..i` are present:
exactly those are called, in slice order, and the loop ends normally. -/
theorem rollbacksLoop_upto (ctx : C) (payload : T) :
    ∀ (subs : List (keyedListener W C T)) (k : Nat) (r : Run W C T) (i : Nat),
      i < subs.length →
      (∀ j, j ≤ i → ∀ sub, subs[j]? = some sub → sub.listener.rollback.isSome = true) →
      ∃ calls, rollbacksLoop ctx payload ((k + i : Nat) : Int) subs k r
          = ({ world := rollbacksWorld ctx payload (subs.take (i + 1)) r.world,
               trace := r.trace ++ calls }, .done ()) ∧
        calls.map Call.sig
          = (List.range (i + 1)).map (fun j => (Kind.rollback, k + j, ctx, payload))
  | [], _, _, i, hi, _ => absurd hi (Nat.not_lt_zero i)
  | sub :: rest, k, r, i, hi, hrb => by
    have h0 := hrb 0 (Nat.zero_le i) sub (by simp)
    cases hf : sub.listener.rollback with
    | none => rw [hf] at h0; cases h0
    | some f =>
      cases i with
      | zero =>
        refine ⟨[{ kind := .rollback, index := k, ctx := ctx, payload := payload,
                   result := (f ctx payload r.world).2 }], ?_, ?_⟩
        · simp [rollbacksLoop, hf, Run.invoke, rollbacksWorld]
        · simp [Call.sig, List.range_succ]
      | succ i =>
        have hi' : i < rest.length := by simpa using hi
        have hrb' : ∀ j, j ≤ i → ∀ sub', rest[j]? = some sub' →
            sub'.listener.rollback.isSome = true := by
          intro j hj sub' hget
          exact hrb (j + 1) (Nat.succ_le_succ hj) sub' (by simpa using hget)
        obtain ⟨calls, hloop, hsig⟩ :=
          rollbacksLoop_upto ctx payload rest (k + 1)
            (r.invoke .rollback k f ctx payload).1 i hi' hrb'
        have hne : ¬ ((k : Int) = ((k + (i + 1) : Nat) : Int)) := by omega
        have hcount : ((k + 1 + i : Nat) : Int) = ((k + (i + 1) : Nat) : Int) := by omega
        refine ⟨{ kind := .rollback, index := k, ctx := ctx, payload := payload,
                  result := (f ctx payload r.world).2 } :: calls, ?_, ?_⟩
        · rw [hcount] at hloop
          simp only [rollbacksLoop, hf, if_neg hne]
          rw [hloop]
          simp [Run.invoke, rollbacksWorld, hf, List.take_succ_cons]
        · simp only [List.map_cons, hsig, Call.sig]
          exact shifted_range Kind.rollback ctx payload k (i + 1)

theorem range_map_zero_add (kind : Kind) (ctx : C) (payload : T) (n : Nat) :
    (List.range n).map (fun j => (kind, 0 + j, ctx, payload)) = callSigs kind ctx payload n := by
  simp [callSigs]

end Sync

/-! ## C1, C2, C10: sequential emission -/

theorem lt_length_of_handlerReturn {W C T : Type} (ctx : C) (payload : T)
    (subs : List (keyedListener W C T)) (w : W) (i : Nat) (x : Option GoError)
    (h : handlerReturn ctx payload subs w i = some x) : i < subs.length := by
  by_contra hge
  have hnone : subs[i]? = none := List.getElem?_eq_none (Nat.le_of_not_lt hge)
  simp [handlerReturn, hnone] at h

/-- C1, for present rollbacks.  Take an `Emit(ctx, payload)` of a
`SyncSignal` in which the handlers before index `i` return nil and the
handler at index `i` returns an error, each called after the ones before
it, and let the rollbacks at the indices `0..i` be present (not nil).
Then `Emit` returns the emission error; the calls it makes are the
handlers `0..i` in ascending order followed by the rollbacks `0..i` in
ascending order, each once and each with `(ctx, payload)`, and nothing
else; and the captured variables are what those calls leave. -/
theorem sync_emit_rollback_boundary {W C T : Type} (s : SyncSignal W C T) (ctx : C)
    (payload : T) (r : Run W C T) (i : Nat)
    (hok : ∀ j, j < i → handlerReturn ctx payload s.subscribers r.world j = some none)
    (hfail : ∃ e, handlerReturn ctx payload s.subscribers r.world i = some (some e))
    (hrb : ∀ j, j ≤ i → ∀ sub, s.subscribers[j]? = some sub →
      sub.listener.rollback.isSome = true) :
    (s.Emit ctx payload r).2 = .returned (some emitError) ∧
    (∃ calls, (s.Emit ctx payload r).1.trace = r.trace ++ calls ∧
      calls.map Call.sig
        = callSigs .handler ctx payload (i + 1) ++ callSigs .rollback ctx payload (i + 1)) ∧
    (s.Emit ctx payload r).1.world
      = rollbacksWorld ctx payload (s.subscribers.take (i + 1))
          (handlersWorld ctx payload (s.subscribers.take (i + 1)) r.world) := by
  have hi : i < s.subscribers.length := by
    obtain ⟨e, he⟩ := hfail
    exact lt_length_of_handlerReturn ctx payload s.subscribers r.world i _ he
  obtain ⟨hcalls, hloop, hsig⟩ :=
    handlersLoop_first_failure ctx payload s.subscribers 0 r i hok hfail
  obtain ⟨rcalls, rloop, rsig⟩ :=
    rollbacksLoop_upto ctx payload s.subscribers 0
      { world := handlersWorld ctx payload (s.subscribers.take (i + 1)) r.world,
        trace := r.trace ++ hcalls } i hi hrb
  have hcount : ¬ (((0 + i : Nat) : Int) = -1) := by omega
  have hemit : s.Emit ctx payload r
      = ({ world := rollbacksWorld ctx payload (s.subscribers.take (i + 1))
                      (handlersWorld ctx payload (s.subscribers.take (i + 1)) r.world),
           trace := r.trace ++ hcalls ++ rcalls }, .returned (some emitError)) := by
    unfold SyncSignal.Emit
    rw [hloop]
    simp only [if_neg hcount]
    rw [rloop]
  rw [hemit]
  refine ⟨rfl, ⟨hcalls ++ rcalls, by simp, ?_⟩, rfl⟩
  rw [List.map_append, hsig, rsig, range_map_zero_add, range_map_zero_add]

/-- C1 at `TestSignalRollback`: the first handler fails, so `Emit(ctx, 1)`
calls handler 0, then rollback 0, and returns the emission error. -/
theorem sync_emit_rollback_boundary_witness :
    (rollbackSignal.Emit () 1 freshRun).2 = .returned (some emitError) ∧
    (∃ calls, (rollbackSignal.Emit () 1 freshRun).1.trace = freshRun.trace ++ calls ∧
      calls.map Call.sig
        = callSigs .handler () 1 (0 + 1) ++ callSigs .rollback () 1 (0 + 1)) ∧
    (rollbackSignal.Emit () 1 freshRun).1.world
      = rollbacksWorld () 1 (rollbackSignal.subscribers.take (0 + 1))
          (handlersWorld () 1 (rollbackSignal.subscribers.take (0 + 1)) freshRun.world) :=
  sync_emit_rollback_boundary rollbackSignal () 1 freshRun 0
    (fun j hj => absurd hj (Nat.not_lt_zero j))
    ⟨{ msg := "error" }, rfl⟩
    (by
      intro j hj sub hsub
      have hj0 : j = 0 := Nat.le_zero.mp hj
      subst hj0
      simp [rollbackSignal] at hsub
      subst hsub
      rfl)

/-- C1 as stated fails where a rollback in `0..i` is nil.  In
`noRollbackSignal` the handler at index 0 is the first (and only) one to
return an error and its rollback is absent: `Emit` panics in the rollback
loop, so it returns no error value, and no rollback is called. -/
theorem sync_emit_rollback_boundary_fails_on_nil_rollback :
    handlerReturn () 1 noRollbackSignal.subscribers freshRun.world 0
        = some (some { msg := "error" }) ∧
    (noRollbackSignal.Emit () 1 freshRun).2 = .panicked nilCallPanic ∧
    (¬ ∃ err, (noRollbackSignal.Emit () 1 freshRun).2 = .returned err) ∧
    (noRollbackSignal.Emit () 1 freshRun).1.trace.map Call.sig = [(Kind.handler, 0, (), 1)] := by
  refine ⟨rfl, rfl, ?_, rfl⟩
  rintro ⟨err, h⟩
  have h' : EmitResult.panicked nilCallPanic = EmitResult.returned err := h
  cases h'

/-- Every handler present and returning nil implies the emission returns
nil after calling all handlers in order. -/
theorem sync_emit_all_nil {W C T : Type} (s : SyncSignal W C T) (ctx : C) (payload : T)
    (r : Run W C T)
    (hnil : ∀ sub ∈ s.subscribers, ∃ f, sub.listener.handler = some f ∧
      ∀ w, (f ctx payload w).2 = none) :
    ∃ calls, s.Emit ctx payload r
        = ({ world := handlersWorld ctx payload s.subscribers r.world,
             trace := r.trace ++ calls }, .returned none) ∧
      calls.map Call.sig = callSigs .handler ctx payload s.subscribers.length := by
  obtain ⟨calls, hloop, hsig⟩ := handlersLoop_all_nil ctx payload s.subscribers 0 r hnil
  refine ⟨calls, ?_, by rw [hsig, range_map_zero_add]⟩
  unfold SyncSignal.Emit
  rw [hloop]
  simp

/-- C2. Sequential order preservation: in a `SyncSignal` whose handlers are
all present and return nil (for the context used, every payload and every
value of their captured variables), each `Emit(ctx, p)` returns nil and
makes exactly the calls handler 0, ..., handler n-1, in that order, each
with `(ctx, p)`, and no rollback call; and successive `Emit` calls with the
payloads `ps` all return nil and make the handler calls of the first
payload, then those of the second, and so on. -/
theorem sync_emit_order_preserved {W C T : Type} (s : SyncSignal W C T) (ctx : C)
    (hnil : ∀ sub ∈ s.subscribers, ∃ f, sub.listener.handler = some f ∧
      ∀ p w, (f ctx p w).2 = none) :
    (∀ (p : T) (r : Run W C T),
      (s.Emit ctx p r).2 = .returned none ∧
      ∃ calls, (s.Emit ctx p r).1.trace = r.trace ++ calls ∧
        calls.map Call.sig = callSigs .handler ctx p s.subscribers.length) ∧
    (∀ (ps : List T) (r : Run W C T),
      (s.emitAll ctx ps r).2 = ps.map (fun _ => EmitResult.returned none) ∧
      ∃ calls, (s.emitAll ctx ps r).1.trace = r.trace ++ calls ∧
        calls.map Call.sig
          = ps.flatMap (fun p => callSigs .handler ctx p s.subscribers.length)) := by
  have hone : ∀ (p : T) (r : Run W C T), ∃ calls, s.Emit ctx p r
        = ({ world := handlersWorld ctx p s.subscribers r.world,
             trace := r.trace ++ calls }, .returned none) ∧
      calls.map Call.sig = callSigs .handler ctx p s.subscribers.length := by
    intro p r
    exact sync_emit_all_nil s ctx p r (fun sub hmem => by
      obtain ⟨f, hf, hres⟩ := hnil sub hmem
      exact ⟨f, hf, fun w => hres p w⟩)
  constructor
  · intro p r
    obtain ⟨calls, hemit, hsig⟩ := hone p r
    rw [hemit]
    exact ⟨rfl, calls, rfl, hsig⟩
  · intro ps
    induction ps with
    | nil => intro r; exact ⟨rfl, [], by simp [SyncSignal.emitAll], by simp⟩
    | cons p ps ih =>
      intro r
      obtain ⟨calls, hemit, hsig⟩ := hone p r
      obtain ⟨hres, rest, htrace, hrest⟩ :=
        ih { world := handlersWorld ctx p s.subscribers r.world, trace := r.trace ++ calls }
      refine ⟨?_, calls ++ rest, ?_, ?_⟩
      · simp only [SyncSignal.emitAll, hemit, hres, List.map_cons]
      · simp only [SyncSignal.emitAll, hemit, htrace, List.append_assoc]
      · simp only [List.map_append, hsig, hrest, List.flatMap_cons]

/-- C2 at `TestSignal`: three `Emit` calls with the payloads 1, 2, 3 return
nil and make the handler calls L1(1), L2(1), L1(2), L2(2), L1(3), L2(3). -/
theorem sync_emit_order_preserved_witness :
    (testSignal.emitAll () [1, 2, 3] freshRun).2
        = [1, 2, 3].map (fun _ => EmitResult.returned none) ∧
      ∃ calls, (testSignal.emitAll () [1, 2, 3] freshRun).1.trace = freshRun.trace ++ calls ∧
        calls.map Call.sig
          = [1, 2, 3].flatMap (fun p => callSigs .handler () p testSignal.subscribers.length) :=
  (sync_emit_order_preserved testSignal ()
    (by
      intro sub hmem
      simp [testSignal] at hmem
      subst hmem
      exact ⟨recordHandler, rfl, fun _ _ => rfl⟩)).2 [1, 2, 3] freshRun

/-- C10, evaluated where it fails.  In `rollbackSignalSwapped` the listener
at index 0 has no rollback and the handler at index 1 fails.  `Emit` calls
both handlers and then panics on the absent rollback: it returns no error
value, and the rollback at index 1 is not called. -/
theorem sync_emit_panics_on_absent_rollback :
    handlerReturn () 1 rollbackSignalSwapped.subscribers freshRun.world 0 = some none ∧
    handlerReturn () 1 rollbackSignalSwapped.subscribers freshRun.world 1
        = some (some { msg := "error" }) ∧
    (rollbackSignalSwapped.Emit () 1 freshRun).2 = .panicked nilCallPanic ∧
    (rollbackSignalSwapped.Emit () 1 freshRun).1.trace.map Call.sig
        = [(Kind.handler, 0, (), 1), (Kind.handler, 1, (), 1)] := by
  exact ⟨rfl, rfl, rfl, rfl⟩

/-! ## Concurrent emission: the two batches of goroutines -/

section Async

variable {W C T : Type}

/-- The handler goroutines, run in the order `js`: when every index names a
subscription and every handler is present, each goroutine makes one call
and records what it returned at the end of the error list. -/
theorem handlerTasks_spec (ctx : C) (payload : T) (subs : List (keyedListener W C T))
    (hh : ∀ sub ∈ subs, sub.listener.handler.isSome = true) :
    ∀ (js : List Nat) (r : Run W C T) (e : errorList),
      (∀ j ∈ js, j < subs.length) →
      ∃ calls w', handlerTasks ctx payload subs js r e
          = ({ world := w', trace := r.trace ++ calls },
             .done { errors := e.errors ++ calls.map (fun c => c.result) }) ∧
        calls.map Call.sig = js.map (fun j => (Kind.handler, j, ctx, payload)) ∧
        (∀ c ∈ calls, ∃ sub f w, subs[c.index]? = some sub ∧
          sub.listener.handler = some f ∧ c.result = (f ctx payload w).2)
  | [], r, e, _ => ⟨[], r.world, by simp [handlerTasks], by simp, by simp⟩
  | j :: js, r, e, hjs => by
    have hj : j < subs.length := hjs j (List.mem_cons_self _ _)
    have hget : subs[j]? = some subs[j] := List.getElem?_eq_getElem hj
    have hsome := hh subs[j] (List.getElem_mem hj)
    cases hf : (subs[j]).listener.handler with
    | none => rw [hf] at hsome; cases hsome
    | some f =>
      obtain ⟨calls, w', htasks, hsig, hret⟩ :=
        handlerTasks_spec ctx payload subs hh js (r.invoke .handler j f ctx payload).1
          (e.add (r.invoke .handler j f ctx payload).2)
          (fun j' hmem => hjs j' (List.mem_cons_of_mem _ hmem))
      refine ⟨{ kind := .handler, index := j, ctx := ctx, payload := payload,
                result := (f ctx payload r.world).2 } :: calls, w', ?_, ?_, ?_⟩
      · simp only [handlerTasks, hget, hf]
        rw [htasks]
        simp [Run.invoke, errorList.add]
      · simp only [List.map_cons, hsig, Call.sig]
      · intro c hc
        rcases List.mem_cons.mp hc with hc | hc
        · subst hc
          exact ⟨subs[j], f, r.world, hget, hf, rfl⟩
        · exact hret c hc

/-- The rollback goroutines, run in the order `js`: whatever happens, only
rollback calls are made; when every index names a subscription and every
rollback is present, each goroutine makes one call and all of them end. -/
theorem rollbackTasks_spec (ctx : C) (payload : T) (subs : List (keyedListener W C T)) :
    ∀ (js : List Nat) (r : Run W C T),
      ∃ calls w' res, rollbackTasks ctx payload subs js r
          = ({ world := w', trace := r.trace ++ calls }, res) ∧
        (∀ c ∈ calls, c.kind = Kind.rollback) ∧
        ((∀ j ∈ js, j < subs.length) →
          (∀ sub ∈ subs, sub.listener.rollback.isSome = true) →
          res = .done () ∧
          calls.map Call.sig = js.map (fun j => (Kind.rollback, j, ctx, payload)))
  | [], r => ⟨[], r.world, .done (), by simp [rollbackTasks], by simp, by simp⟩
  | j :: js, r => by
    cases hget : subs[j]? with
    | none =>
      obtain ⟨calls, w', res, htasks, hkind, hall⟩ :=
        rollbackTasks_spec ctx payload subs js r
      refine ⟨calls, w', res, ?_, hkind, ?_⟩
      · simp only [rollbackTasks, hget]
        exact htasks
      · intro hjs _
        have hj : j < subs.length := hjs j (List.mem_cons_self _ _)
        rw [List.getElem?_eq_getElem hj] at hget
        cases hget
    | some sub =>
      cases hf : sub.listener.rollback with
      | none =>
        refine ⟨[], r.world, .panic nilCallPanic, ?_, by simp, ?_⟩
        · simp [rollbackTasks, hget, hf]
        · intro _ hrb
          have hmem : sub ∈ subs := by
            obtain ⟨hlt, heq⟩ := List.getElem?_eq_some.mp hget
            exact heq ▸ List.getElem_mem hlt
          have hsome := hrb sub hmem
          rw [hf] at hsome
          cases hsome
      | some f =>
        obtain ⟨calls, w', res, htasks, hkind, hall⟩ :=
          rollbackTasks_spec ctx payload subs js (r.invoke .rollback j f ctx payload).1
        refine ⟨{ kind := .rollback, index := j, ctx := ctx, payload := payload,
                  result := (f ctx payload r.world).2 } :: calls, w', res, ?_, ?_, ?_⟩
        · simp only [rollbackTasks, hget, hf]
          rw [htasks]
          simp [Run.invoke]
        · intro c hc
          rcases List.mem_cons.mp hc with hc | hc
          · subst hc; rfl
          · exact hkind c hc
        · intro hjs hrb
          obtain ⟨hres, hsig⟩ :=
            hall (fun j' hmem => hjs j' (List.mem_cons_of_mem _ hmem)) hrb
          exact ⟨hres, by simp only [List.map_cons, hsig, Call.sig]⟩

/-- The error list after the handler goroutines: `error()` is true exactly
when some handler call returned a non-nil error. -/
theorem errorList_error_iff (n : Nat) (calls : List (Call C T)) :
    (errorList.error { errors := List.replicate n none ++ calls.map (fun c => c.result) }) = true
      ↔ ∃ c ∈ calls, c.result ≠ none := by
  simp only [errorList.error, List.any_append, Bool.or_eq_true, List.any_eq_true,
    List.mem_replicate, List.mem_map]
  constructor
  · rintro (⟨x, ⟨_, hx⟩, hsome⟩ | ⟨x, ⟨c, hc, rfl⟩, hsome⟩)
    · rw [hx] at hsome; cases hsome
    · exact ⟨c, hc, by intro h; rw [h] at hsome; cases hsome⟩
  · rintro ⟨c, hc, hne⟩
    refine Or.inr ⟨c.result, ⟨c, hc, rfl⟩, ?_⟩
    cases h : c.result with
    | none => exact absurd h hne
    | some e => rfl

/-- What one `AsyncSignal.Emit` does, for given orders of the goroutines. -/
theorem async_emit_core (s : AsyncSignal W C T) (ctx : C) (payload : T)
    (hOrder rOrder : List Nat) (r : Run W C T)
    (hσ : ∀ j ∈ hOrder, j < s.subscribers.length)
    (hh : ∀ sub ∈ s.subscribers, sub.listener.handler.isSome = true) :
    ∃ hcalls rcalls,
      (s.Emit ctx payload hOrder rOrder r).1.trace = r.trace ++ hcalls ++ rcalls ∧
      hcalls.map Call.sig = hOrder.map (fun j => (Kind.handler, j, ctx, payload)) ∧
      (∀ c ∈ hcalls, ∃ sub f w, s.subscribers[c.index]? = some sub ∧
        sub.listener.handler = some f ∧ c.result = (f ctx payload w).2) ∧
      (∀ c ∈ rcalls, c.kind = Kind.rollback) ∧
      ((∀ c ∈ hcalls, c.result = none) →
        rcalls = [] ∧ (s.Emit ctx payload hOrder rOrder r).2 = .returned none) ∧
      ((∃ c ∈ hcalls, c.result ≠ none) →
        (∀ j ∈ rOrder, j < s.subscribers.length) →
        (∀ sub ∈ s.subscribers, sub.listener.rollback.isSome = true) →
        rcalls.map Call.sig = rOrder.map (fun j => (Kind.rollback, j, ctx, payload)) ∧
        (s.Emit ctx payload hOrder rOrder r).2 = .returned (some emitError)) := by
  obtain ⟨hcalls, w1, htasks, hsig, hret⟩ :=
    handlerTasks_spec ctx payload s.subscribers hh hOrder r
      { errors := List.replicate s.subscribers.length none } hσ
  have herr := errorList_error_iff s.subscribers.length hcalls
  by_cases hfail : ∃ c ∈ hcalls, c.result ≠ none
  · obtain ⟨rcalls, w2, res, rtasks, hkind, hall⟩ :=
      rollbackTasks_spec ctx payload s.subscribers rOrder
        { world := w1, trace := r.trace ++ hcalls }
    have hnot : ¬ ∀ c ∈ hcalls, c.result = none := by
      intro hnone
      obtain ⟨c, hc, hne⟩ := hfail
      exact absurd (hnone c hc) hne
    cases res with
    | panic msg =>
      have hemit : s.Emit ctx payload hOrder rOrder r
          = ({ world := w2, trace := r.trace ++ hcalls ++ rcalls }, .panicked msg) := by
        unfold AsyncSignal.Emit
        simp only [htasks, herr.mpr hfail, Bool.not_true, Bool.false_eq_true, if_false, rtasks]
      refine ⟨hcalls, rcalls, by rw [hemit], hsig, hret, hkind, fun h => absurd h hnot, ?_⟩
      intro _ hτ hrb
      exact Step.noConfusion (hall hτ hrb).1
    | done u =>
      have hemit : s.Emit ctx payload hOrder rOrder r
          = ({ world := w2, trace := r.trace ++ hcalls ++ rcalls },
             .returned (some emitError)) := by
        unfold AsyncSignal.Emit
        simp only [htasks, herr.mpr hfail, Bool.not_true, Bool.false_eq_true, if_false, rtasks]
      refine ⟨hcalls, rcalls, by rw [hemit], hsig, hret, hkind, fun h => absurd h hnot, ?_⟩
      intro _ hτ hrb
      exact ⟨(hall hτ hrb).2, by rw [hemit]⟩
  · have hfalse : (errorList.error
        { errors := List.replicate s.subscribers.length none
            ++ hcalls.map (fun c => c.result) }) = false := by
      cases hb : (errorList.error
        { errors := List.replicate s.subscribers.length none
            ++ hcalls.map (fun c => c.result) }) with
      | false => rfl
      | true => exact absurd (herr.mp hb) hfail
    have hemit : s.Emit ctx payload hOrder rOrder r
        = ({ world := w1, trace := r.trace ++ hcalls }, .returned none) := by
      unfold AsyncSignal.Emit
      simp only [htasks, hfalse, Bool.not_false, if_true]
    refine ⟨hcalls, [], by rw [hemit]; simp, hsig, hret, by simp, ?_, ?_⟩
    · intro _
      exact ⟨rfl, by rw [hemit]⟩
    · intro hsome
      exact absurd hsome hfail

theorem range_bound_of_perm {js : List Nat} {n : Nat} (h : js.Perm (List.range n)) :
    ∀ j ∈ js, j < n :=
  fun _ hj => List.mem_range.mp (h.mem_iff.mp hj)

/-- For handlers whose returned error does not depend on the captured
variables, some handler call of the emission returns an error exactly when
some handler of the registry does. -/
theorem async_some_call_fails_iff (s : AsyncSignal W C T) (ctx : C) (payload : T)
    (hOrder : List Nat) (w0 : W) (hcalls : List (Call C T))
    (hσ : hOrder.Perm (List.range s.subscribers.length))
    (hsig : hcalls.map Call.sig = hOrder.map (fun j => (Kind.handler, j, ctx, payload)))
    (hret : ∀ c ∈ hcalls, ∃ sub f w, s.subscribers[c.index]? = some sub ∧
      sub.listener.handler = some f ∧ c.result = (f ctx payload w).2)
    (hpure : ∀ sub ∈ s.subscribers, ∀ f, sub.listener.handler = some f →
      ∀ w w', (f ctx payload w).2 = (f ctx payload w').2) :
    (∃ c ∈ hcalls, c.result ≠ none) ↔
      ∃ sub ∈ s.subscribers, ∃ f, sub.listener.handler = some f ∧
        (f ctx payload w0).2 ≠ none := by
  constructor
  · rintro ⟨c, hc, hne⟩
    obtain ⟨sub, f, w, hget, hf, hres⟩ := hret c hc
    obtain ⟨hlt, heq⟩ := List.getElem?_eq_some.mp hget
    have hmem : sub ∈ s.subscribers := heq ▸ List.getElem_mem hlt
    refine ⟨sub, hmem, f, hf, ?_⟩
    rw [hpure sub hmem f hf w0 w, ← hres]
    exact hne
  · rintro ⟨sub, hmem, f, hf, hne⟩
    obtain ⟨j, hlt, hj⟩ := List.getElem_of_mem hmem
    have hjσ : j ∈ hOrder := hσ.mem_iff.mpr (List.mem_range.mpr hlt)
    have hin : (Kind.handler, j, ctx, payload) ∈ hcalls.map Call.sig := by
      rw [hsig]
      exact List.mem_map.mpr ⟨j, hjσ, rfl⟩
    obtain ⟨c, hc, hcsig⟩ := List.mem_map.mp hin
    have hidx : c.index = j := by
      have := congrArg (fun x => x.2.1) hcsig
      simpa [Call.sig] using this
    obtain ⟨sub', f', w, hget, hf', hres⟩ := hret c hc
    rw [hidx, List.getElem?_eq_getElem hlt, hj] at hget
    cases hget
    rw [hf] at hf'
    cases hf'
    refine ⟨c, hc, ?_⟩
    rw [hres, hpure sub hmem f hf w w0]
    exact hne

end Async

/-! ## C3: concurrent emission -/

/-- C3, for present handlers and rollbacks.  Take an `AsyncSignal` with `N`
subscriptions whose handlers are all present, and any orders in which the
handler goroutines and the rollback goroutines run.  `Emit` calls each of
the `N` handlers exactly once with `(ctx, payload)`, and after them it makes
only rollback calls.  If every handler call returned nil, it makes no
rollback call and returns nil.  If some handler call returned an error and
the `N` rollbacks are present, it calls each of the `N` rollbacks exactly
once with `(ctx, payload)` and returns the emission error.  And when the
errors returned by the handlers do not depend on their captured variables
(and the rollbacks are present if some handler fails), `Emit` returns the
same result for any other orders of the goroutines. -/
theorem async_emit_rollback_breadth {W C T : Type} (s : AsyncSignal W C T) (ctx : C)
    (payload : T) (hOrder rOrder : List Nat) (r : Run W C T)
    (hσ : hOrder.Perm (List.range s.subscribers.length))
    (hτ : rOrder.Perm (List.range s.subscribers.length))
    (hh : ∀ sub ∈ s.subscribers, sub.listener.handler.isSome = true) :
    (∃ hcalls rcalls,
      (s.Emit ctx payload hOrder rOrder r).1.trace = r.trace ++ hcalls ++ rcalls ∧
      hcalls.map Call.sig = hOrder.map (fun j => (Kind.handler, j, ctx, payload)) ∧
      (hcalls.map Call.sig).Perm (callSigs .handler ctx payload s.subscribers.length) ∧
      (∀ c ∈ rcalls, c.kind = Kind.rollback) ∧
      ((∀ c ∈ hcalls, c.result = none) →
        rcalls = [] ∧ (s.Emit ctx payload hOrder rOrder r).2 = .returned none) ∧
      ((∃ c ∈ hcalls, c.result ≠ none) →
        (∀ sub ∈ s.subscribers, sub.listener.rollback.isSome = true) →
        rcalls.map Call.sig = rOrder.map (fun j => (Kind.rollback, j, ctx, payload)) ∧
        (rcalls.map Call.sig).Perm (callSigs .rollback ctx payload s.subscribers.length) ∧
        (s.Emit ctx payload hOrder rOrder r).2 = .returned (some emitError))) ∧
    (∀ hOrder' rOrder' : List Nat,
      hOrder'.Perm (List.range s.subscribers.length) →
      rOrder'.Perm (List.range s.subscribers.length) →
      (∀ sub ∈ s.subscribers, ∀ f, sub.listener.handler = some f →
        ∀ w w', (f ctx payload w).2 = (f ctx payload w').2) →
      ((∃ sub ∈ s.subscribers, ∃ f, sub.listener.handler = some f ∧
          (f ctx payload r.world).2 ≠ none) →
        ∀ sub ∈ s.subscribers, sub.listener.rollback.isSome = true) →
      (s.Emit ctx payload hOrder' rOrder' r).2 = (s.Emit ctx payload hOrder rOrder r).2) := by
  constructor
  · obtain ⟨hcalls, rcalls, htrace, hsig, _, hkind, hnil, herr⟩ :=
      async_emit_core s ctx payload hOrder rOrder r (range_bound_of_perm hσ) hh
    refine ⟨hcalls, rcalls, htrace, hsig, ?_, hkind, hnil, ?_⟩
    · rw [hsig]
      exact hσ.map _
    · intro hsome hrb
      obtain ⟨rsig, hres⟩ := herr hsome (range_bound_of_perm hτ) hrb
      refine ⟨rsig, ?_, hres⟩
      rw [rsig]
      exact hτ.map _
  · intro hOrder' rOrder' hσ' hτ' hpure hrb
    obtain ⟨hcalls, rcalls, _, hsig, hret, _, hnil, herr⟩ :=
      async_emit_core s ctx payload hOrder rOrder r (range_bound_of_perm hσ) hh
    obtain ⟨hcalls', rcalls', _, hsig', hret', _, hnil', herr'⟩ :=
      async_emit_core s ctx payload hOrder' rOrder' r (range_bound_of_perm hσ') hh
    have hiff := async_some_call_fails_iff s ctx payload hOrder r.world hcalls hσ hsig hret hpure
    have hiff' :=
      async_some_call_fails_iff s ctx payload hOrder' r.world hcalls' hσ' hsig' hret' hpure
    by_cases hany : ∃ sub ∈ s.subscribers, ∃ f, sub.listener.handler = some f ∧
        (f ctx payload r.world).2 ≠ none
    · rw [(herr (hiff.mpr hany) (range_bound_of_perm hτ) (hrb hany)).2,
        (herr' (hiff'.mpr hany) (range_bound_of_perm hτ') (hrb hany)).2]
    · have hall : ∀ c ∈ hcalls, c.result = none := by
        intro c hc
        by_contra hne
        exact hany (hiff.mp ⟨c, hc, hne⟩)
      have hall' : ∀ c ∈ hcalls', c.result = none := by
        intro c hc
        by_contra hne
        exact hany (hiff'.mp ⟨c, hc, hne⟩)
      rw [(hnil hall).2, (hnil' hall').2]

/-- C3 at `TestSignalAsyncRollback`, with the second handler finishing
first: both handlers are called, one fails, both rollbacks are called and
`Emit` returns the emission error. -/
theorem async_emit_rollback_breadth_witness :
    ∃ hcalls rcalls,
      (asyncRollbackSignal.Emit () 1 [1, 0] [0, 1] freshRun).1.trace
        = freshRun.trace ++ hcalls ++ rcalls ∧
      hcalls.map Call.sig = [1, 0].map (fun j => (Kind.handler, j, (), 1)) ∧
      (hcalls.map Call.sig).Perm (callSigs .handler () 1 asyncRollbackSignal.subscribers.length) ∧
      (∀ c ∈ rcalls, c.kind = Kind.rollback) ∧
      ((∀ c ∈ hcalls, c.result = none) →
        rcalls = [] ∧
        (asyncRollbackSignal.Emit () 1 [1, 0] [0, 1] freshRun).2 = .returned none) ∧
      ((∃ c ∈ hcalls, c.result ≠ none) →
        (∀ sub ∈ asyncRollbackSignal.subscribers, sub.listener.rollback.isSome = true) →
        rcalls.map Call.sig = [0, 1].map (fun j => (Kind.rollback, j, (), 1)) ∧
        (rcalls.map Call.sig).Perm
          (callSigs .rollback () 1 asyncRollbackSignal.subscribers.length) ∧
        (asyncRollbackSignal.Emit () 1 [1, 0] [0, 1] freshRun).2
          = .returned (some emitError)) :=
  (async_emit_rollback_breadth asyncRollbackSignal () 1 [1, 0] [0, 1] freshRun
    (List.Perm.swap 0 1 []) (List.Perm.refl _)
    (by
      intro sub hmem
      simp [asyncRollbackSignal] at hmem
      rcases hmem with h | h <;> subst h <;> rfl)).1

/-- C3 as stated fails in three places.  With an absent rollback
(`asyncNoRollbackSignal`, first handler failing) `Emit` panics after the
rollback at index 0: it returns no error value and the second rollback is
never reached.  With an absent handler (`asyncNilHandlerSignal`) `Emit`
panics before any call.  And in `asyncGuardSignal`, whose second handler
reads what the first writes, the order `0, 1` of the handlers makes `Emit`
return the emission error while the order `1, 0` makes it return nil. -/
theorem async_emit_rollback_breadth_fails :
    ((asyncNoRollbackSignal.Emit () 1 [0, 1] [0, 1] freshRun).2 = .panicked nilCallPanic ∧
      (asyncNoRollbackSignal.Emit () 1 [0, 1] [0, 1] freshRun).1.trace.map Call.sig
        = [(Kind.handler, 0, (), 1), (Kind.handler, 1, (), 1), (Kind.rollback, 0, (), 1)] ∧
      (asyncNoRollbackSignal.Emit () 1 [0, 1] [0, 1] freshRun).1.trace.map (fun c => c.result)
        = [some { msg := "error" }, none, none]) ∧
    ((asyncNilHandlerSignal.Emit () 1 [0] [0] freshRun).2 = .panicked nilCallPanic ∧
      (asyncNilHandlerSignal.Emit () 1 [0] [0] freshRun).1.trace.map Call.sig = []) ∧
    ((asyncGuardSignal.Emit () 1 [0, 1] [0, 1] freshRun).2 = .returned (some emitError) ∧
      (asyncGuardSignal.Emit () 1 [1, 0] [0, 1] freshRun).2 = .returned none) := by
  exact ⟨⟨rfl, rfl, rfl⟩, ⟨rfl, rfl⟩, ⟨rfl, rfl⟩⟩

/-! ## C13: the abstract base -/

/-- C13. Abstract base misuse: for every `BaseSignal` state, context and
payload, `BaseSignal.Emit` panics with "implement me in derived type"; it
returns no value, neither nil nor an error, and makes no handler or
rollback call (the run is left as it was).  The zero value is one such state. -/
theorem baseSignal_emit_panics {W C T : Type} (s : BaseSignal W C T) (ctx : C) (payload : T)
    (r : Run W C T) :
    (s.Emit ctx payload r).2 = .panicked implementMePanic ∧
    (∀ err, (s.Emit ctx payload r).2 ≠ .returned err) ∧
    (s.Emit ctx payload r).1 = r ∧
    ((BaseSignal.zero : BaseSignal W C T).Emit ctx payload r).2
      = .panicked implementMePanic := by
  refine ⟨rfl, ?_, rfl, rfl⟩
  intro err h
  have h' : EmitResult.panicked implementMePanic = EmitResult.returned err := h
  cases h'

/-! ## C15: emission leaves the registry alone -/

theorem syncEmitOn_eq {W C T : Type} (ctx : C) (payload : T)
    (st : Receiver (SyncSignal W C T) W C T) :
    SyncSignal.EmitOn ctx payload st
      = ({ signal := st.signal, run := (st.signal.Emit ctx payload st.run).1 },
         (st.signal.Emit ctx payload st.run).2) := by
  unfold SyncSignal.EmitOn SyncSignal.Emit
  rcases h : handlersLoop ctx payload st.signal.subscribers 0 st.run with ⟨r1, res⟩
  cases res with
  | panic msg => rfl
  | done count =>
    by_cases hc : count = -1
    · simp only [hc, if_true]
    · simp only [if_neg hc]
      rcases h2 : rollbacksLoop ctx payload count st.signal.subscribers 0 r1 with ⟨r2, res2⟩
      cases res2 <;> rfl

theorem asyncEmitOn_eq {W C T : Type} (ctx : C) (payload : T) (hOrder rOrder : List Nat)
    (st : Receiver (AsyncSignal W C T) W C T) :
    AsyncSignal.EmitOn ctx payload hOrder rOrder st
      = ({ signal := st.signal,
           run := (st.signal.Emit ctx payload hOrder rOrder st.run).1 },
         (st.signal.Emit ctx payload hOrder rOrder st.run).2) := by
  unfold AsyncSignal.EmitOn AsyncSignal.Emit
  simp only
  rcases h : handlerTasks ctx payload st.signal.subscribers hOrder st.run
      { errors := List.replicate st.signal.subscribers.length none } with ⟨r1, res⟩
  cases res with
  | panic msg => rfl
  | done errs =>
    by_cases he : errs.error = true
    · simp only [he, Bool.not_true, Bool.false_eq_true, if_false]
      rcases h2 : rollbackTasks ctx payload st.signal.subscribers rOrder r1 with ⟨r2, res2⟩
      cases res2 <;> rfl
    · have he' : errs.error = false := by
        cases hb : errs.error with
        | false => rfl
        | true => exact absurd hb he
      simp only [he', Bool.not_false, if_true]

/-- C15. Emit is read-only on the registry (listeners that do not call back
into the signal): after `SyncSignal.Emit` and after `AsyncSignal.Emit`,
whether the call returned nil, returned the error or panicked, the signal
is the signal before the call, so the subscriber sequence, the key map,
`Len()` and `IsEmpty()` are the same; and an `Emit` that follows runs over
the same subscribers: it is the `Emit` of the original signal, started in
the run the first call left. -/
theorem emit_preserves_registry {W C T : Type} (ctx : C) (payload : T) :
    (∀ st : Receiver (SyncSignal W C T) W C T,
      (SyncSignal.EmitOn ctx payload st).1.signal = st.signal ∧
      (SyncSignal.EmitOn ctx payload st).1.signal.subscribers = st.signal.subscribers ∧
      (SyncSignal.EmitOn ctx payload st).1.signal.subscribersMap = st.signal.subscribersMap ∧
      (SyncSignal.EmitOn ctx payload st).1.signal.Len = st.signal.Len ∧
      (SyncSignal.EmitOn ctx payload st).1.signal.IsEmpty = st.signal.IsEmpty ∧
      ((SyncSignal.EmitOn ctx payload st).1.run, (SyncSignal.EmitOn ctx payload st).2)
        = st.signal.Emit ctx payload st.run ∧
      ∀ next : T,
        ((SyncSignal.EmitOn ctx next (SyncSignal.EmitOn ctx payload st).1).1.run,
          (SyncSignal.EmitOn ctx next (SyncSignal.EmitOn ctx payload st).1).2)
          = st.signal.Emit ctx next (st.signal.Emit ctx payload st.run).1) ∧
    (∀ (hOrder rOrder : List Nat) (st : Receiver (AsyncSignal W C T) W C T),
      (AsyncSignal.EmitOn ctx payload hOrder rOrder st).1.signal = st.signal ∧
      (AsyncSignal.EmitOn ctx payload hOrder rOrder st).1.signal.subscribers
        = st.signal.subscribers ∧
      (AsyncSignal.EmitOn ctx payload hOrder rOrder st).1.signal.subscribersMap
        = st.signal.subscribersMap ∧
      (AsyncSignal.EmitOn ctx payload hOrder rOrder st).1.signal.Len = st.signal.Len ∧
      (AsyncSignal.EmitOn ctx payload hOrder rOrder st).1.signal.IsEmpty = st.signal.IsEmpty ∧
      ((AsyncSignal.EmitOn ctx payload hOrder rOrder st).1.run,
          (AsyncSignal.EmitOn ctx payload hOrder rOrder st).2)
        = st.signal.Emit ctx payload hOrder rOrder st.run ∧
      ∀ (next : T) (hOrder2 rOrder2 : List Nat),
        ((AsyncSignal.EmitOn ctx next hOrder2 rOrder2
            (AsyncSignal.EmitOn ctx payload hOrder rOrder st).1).1.run,
          (AsyncSignal.EmitOn ctx next hOrder2 rOrder2
            (AsyncSignal.EmitOn ctx payload hOrder rOrder st).1).2)
          = st.signal.Emit ctx next hOrder2 rOrder2
              (st.signal.Emit ctx payload hOrder rOrder st.run).1) := by
  constructor
  · intro st
    have h := syncEmitOn_eq ctx payload st
    refine ⟨by rw [h], by rw [h], by rw [h], by rw [h], by rw [h], by rw [h], ?_⟩
    intro next
    rw [syncEmitOn_eq ctx next, h]
  · intro hOrder rOrder st
    have h := asyncEmitOn_eq ctx payload hOrder rOrder st
    refine ⟨by rw [h], by rw [h], by rw [h], by rw [h], by rw [h], by rw [h], ?_⟩
    intro next hOrder2 rOrder2
    rw [asyncEmitOn_eq ctx next, h]

/-! ## C16, C17: keys and sequence entries -/

theorem removeFirst_length {W C T : Type} (k : String) :
    ∀ subs : List (keyedListener W C T), (∃ sub ∈ subs, sub.key = k) →
      (removeFirst k subs).length + 1 = subs.length
  | [], h => by
    obtain ⟨sub, hmem, _⟩ := h
    cases hmem
  | a :: rest, h => by
    by_cases ha : a.key = k
    · simp [removeFirst, ha]
    · have hrest : ∃ sub ∈ rest, sub.key = k := by
        obtain ⟨sub, hmem, hkey⟩ := h
        rcases List.mem_cons.mp hmem with heq | hmem
        · subst heq; exact absurd hkey ha
        · exact ⟨sub, hmem, hkey⟩
      simp [removeFirst, ha, removeFirst_length k rest hrest]

theorem mem_removeFirst_of_ne {W C T : Type} (k : String) (sub : keyedListener W C T)
    (hne : sub.key ≠ k) :
    ∀ subs : List (keyedListener W C T), sub ∈ subs → sub ∈ removeFirst k subs
  | [], h => by cases h
  | a :: rest, h => by
    by_cases ha : a.key = k
    · simp only [removeFirst, ha, if_true]
      rcases List.mem_cons.mp h with heq | hmem
      · subst heq; exact absurd ha hne
      · exact hmem
    · simp only [removeFirst, ha, if_false]
      rcases List.mem_cons.mp h with heq | hmem
      · subst heq; exact List.mem_cons_self _ _
      · exact List.mem_cons_of_mem _ (mem_removeFirst_of_ne k sub hne rest hmem)

theorem removeFirst_append_new {W C T : Type} (k : String) (l : ListenerExtended W C T) :
    ∀ subs : List (keyedListener W C T), (∀ sub ∈ subs, sub.key ≠ k) →
      removeFirst k (subs ++ [{ key := k, listener := l }]) = subs
  | [], _ => by simp [removeFirst]
  | a :: rest, h => by
    have ha : a.key ≠ k := h a (List.mem_cons_self _ _)
    have hrest := removeFirst_append_new k l rest
      (fun sub hmem => h sub (List.mem_cons_of_mem _ hmem))
    simp [removeFirst, ha, hrest]

/-- One mutating call keeps every key of the map backed by a sequence
entry with that key field. -/
theorem apply_keeps_keys_backed {W C T : Type} (s s' : BaseSignal W C T) (op : Op W C T)
    (hinv : ∀ k, s.hasKey k = true → ∃ sub ∈ s.subscribers, sub.key = k)
    (hop : s.apply op = some s') :
    ∀ k, s'.hasKey k = true → ∃ sub ∈ s'.subscribers, sub.key = k := by
  cases op with
  | add handler rollback key =>
    cases key with
    | nil =>
      simp only [BaseSignal.apply, BaseSignal.AddListener, Option.some.injEq] at hop
      subst hop
      intro k hk
      have hk' : s.hasKey k = true := hk
      obtain ⟨sub, hmem, hkey⟩ := hinv k hk'
      exact ⟨sub, List.mem_append_left _ hmem, hkey⟩
    | cons k0 ks =>
      by_cases h0 : s.hasKey k0 = true
      · simp only [BaseSignal.apply, BaseSignal.AddListener, h0, if_true,
          Option.some.injEq] at hop
        subst hop
        exact hinv
      · cases hm : s.subscribersMap with
        | none =>
          simp [BaseSignal.apply, BaseSignal.AddListener, h0, hm] at hop
        | some m =>
          simp only [BaseSignal.apply, BaseSignal.AddListener, h0, hm, Bool.false_eq_true,
            if_false, Option.some.injEq] at hop
          subst hop
          intro k hk
          by_cases hkk : k = k0
          · subst hkk
            exact ⟨_, List.mem_append_right _ (List.mem_singleton_self _), rfl⟩
          · have hk' : s.hasKey k = true := by
              simp only [BaseSignal.hasKey, KeyMap.insert, hkk, if_false] at hk
              simp only [BaseSignal.hasKey, hm]
              exact hk
            obtain ⟨sub, hmem, hkey⟩ := hinv k hk'
            exact ⟨sub, List.mem_append_left _ hmem, hkey⟩
  | remove k0 =>
    by_cases h0 : s.hasKey k0 = true
    · obtain ⟨m, hm, _⟩ := map_of_hasKey s k0 h0
      simp only [BaseSignal.apply, BaseSignal.RemoveListener, h0, if_true, hm,
        Option.some.injEq] at hop
      subst hop
      intro k hk
      simp only [BaseSignal.hasKey, KeyMap.delete] at hk
      by_cases hkk : k = k0
      · simp [hkk] at hk
      · simp only [hkk, if_false] at hk
        have hk' : s.hasKey k = true := by
          simp only [BaseSignal.hasKey, hm]
          exact hk
        obtain ⟨sub, hmem, hkey⟩ := hinv k hk'
        exact ⟨sub, mem_removeFirst_of_ne k0 sub (by rw [hkey]; exact hkk) _ hmem, hkey⟩
    · simp only [BaseSignal.apply, BaseSignal.RemoveListener, h0, Bool.false_eq_true,
        if_false, Option.some.injEq] at hop
      subst hop
      exact hinv
  | reset =>
    simp only [BaseSignal.apply, Option.some.injEq] at hop
    subst hop
    intro k hk
    simp [BaseSignal.hasKey, BaseSignal.Reset, KeyMap.empty] at hk

theorem applyAll_keeps_keys_backed {W C T : Type} :
    ∀ (ops : List (Op W C T)) (s s' : BaseSignal W C T),
      (∀ k, s.hasKey k = true → ∃ sub ∈ s.subscribers, sub.key = k) →
      s.applyAll ops = some s' →
      ∀ k, s'.hasKey k = true → ∃ sub ∈ s'.subscribers, sub.key = k
  | [], s, s', hinv, h => by
    simp only [BaseSignal.applyAll, Option.some.injEq] at h
    subst h
    exact hinv
  | op :: ops, s, s', hinv, h => by
    cases hop : s.apply op with
    | none => simp [BaseSignal.applyAll, hop] at h
    | some s1 =>
      simp only [BaseSignal.applyAll, hop] at h
      exact applyAll_keeps_keys_backed ops s1 s'
        (apply_keeps_keys_backed s s1 op hinv hop) h

/-- C16. Map keys are always backed by a sequence entry: in every state
reachable from the empty registry by `AddListener`, `RemoveListener` and
`Reset`, for every key of the key map the ordered sequence has an entry
whose key field is that key; so every `RemoveListener` call that does not
return -1 shortens the sequence by exactly one element and returns the
previous `Len()` minus 1, a value that is at least 0. -/
theorem reachable_keys_backed {W C T : Type} (s : BaseSignal W C T) (hs : Reachable s) :
    (∀ k, s.hasKey k = true → ∃ sub ∈ s.subscribers, sub.key = k) ∧
    (∀ k, (s.RemoveListener k).1 ≠ -1 →
      (s.RemoveListener k).2.subscribers.length + 1 = s.subscribers.length ∧
      (s.RemoveListener k).1 = s.Len - 1 ∧ 0 ≤ (s.RemoveListener k).1) := by
  have hinv : ∀ k, s.hasKey k = true → ∃ sub ∈ s.subscribers, sub.key = k := by
    obtain ⟨ops, hops⟩ := hs
    refine applyAll_keeps_keys_backed ops BaseSignal.new s ?_ hops
    intro k hk
    simp [BaseSignal.hasKey, BaseSignal.new, KeyMap.empty] at hk
  refine ⟨hinv, ?_⟩
  intro k hret
  by_cases hk : s.hasKey k = true
  · obtain ⟨m, hm, _⟩ := map_of_hasKey s k hk
    have hlen := removeFirst_length k s.subscribers (hinv k hk)
    have hrem : s.RemoveListener k
        = (((removeFirst k s.subscribers).length : Int),
            { subscribers := removeFirst k s.subscribers,
              subscribersMap := some (m.delete k) }) := by
      simp [BaseSignal.RemoveListener, hk, hm]
    rw [hrem]
    refine ⟨hlen, ?_, ?_⟩
    · simp only [BaseSignal.Len]
      omega
    · simp only
      omega
  · have hrem : s.RemoveListener k = (-1, s) := by
      simp [BaseSignal.RemoveListener, hk]
    rw [hrem] at hret
    exact absurd rfl hret

/-- C16 at the registry of `TestAddRemoveListener` after its two adds. -/
theorem reachable_keys_backed_witness :
    Reachable testKeyState ∧
    (∀ k, testKeyState.hasKey k = true → ∃ sub ∈ testKeyState.subscribers, sub.key = k) ∧
    (∀ k, (testKeyState.RemoveListener k).1 ≠ -1 →
      (testKeyState.RemoveListener k).2.subscribers.length + 1
        = testKeyState.subscribers.length ∧
      (testKeyState.RemoveListener k).1 = testKeyState.Len - 1 ∧
      0 ≤ (testKeyState.RemoveListener k).1) :=
  ⟨⟨testKeyOps, rfl⟩, reachable_keys_backed testKeyState ⟨testKeyOps, rfl⟩⟩

/-- C17, for an initialised key map.  On a registry whose key map is
initialised, for a key that is not in the map and is the key field of no
entry of the sequence, `AddListener(h, r, k)` succeeds and the
`RemoveListener(k)` right after it returns the `Len()` from before the add
and leaves the registry that was there before the add: the same sequence
and the same key map. -/
theorem add_remove_round_trip {W C T : Type} (s : BaseSignal W C T) (m : KeyMap W C T)
    (hm : s.subscribersMap = some m)
    (handler rollback : Option (SignalListener W C T)) (k : String) (ks : List String)
    (hk : s.hasKey k = false) (hno : ∀ sub ∈ s.subscribers, sub.key ≠ k) :
    ∃ s1, s.AddListener handler rollback (k :: ks) = .done (s.Len + 1, s1) ∧
      s1.RemoveListener k = (s.Len, s) ∧
      (s1.RemoveListener k).2.subscribers = s.subscribers ∧
      (s1.RemoveListener k).2.subscribersMap = s.subscribersMap := by
  have hmk : m k = none := by
    have h := hasKey_of_map s m hm k
    rw [hk] at h
    cases hv : m k with
    | none => rfl
    | some v => rw [hv] at h; cases h
  have hmap : (m.insert k ⟨handler, rollback⟩).delete k = m := by
    funext k'
    by_cases hkk : k' = k
    · simp [KeyMap.delete, hkk, hmk]
    · simp [KeyMap.delete, KeyMap.insert, hkk]
  have hrem : (⟨s.subscribers ++ [⟨k, ⟨handler, rollback⟩⟩],
      some (m.insert k ⟨handler, rollback⟩)⟩ : BaseSignal W C T).RemoveListener k
      = (s.Len, s) := by
    have hseq := removeFirst_append_new k (⟨handler, rollback⟩ : ListenerExtended W C T)
      s.subscribers hno
    have hs : s = ⟨s.subscribers, some m⟩ := by
      cases s
      simp only at hm
      subst hm
      rfl
    simp only [BaseSignal.RemoveListener, BaseSignal.hasKey, KeyMap.insert, if_true,
      Option.isSome_some, hseq, hmap, BaseSignal.Len]
    rw [← hs]
  refine ⟨⟨s.subscribers ++ [⟨k, ⟨handler, rollback⟩⟩],
    some (m.insert k ⟨handler, rollback⟩)⟩, ?_, hrem, by rw [hrem], by rw [hrem]⟩
  simp [BaseSignal.AddListener, BaseSignal.Len, hk, hm]

/-- C17 at the registry of `TestAddRemoveListener`: adding `"test-key"`
after the unkeyed listener and removing it again gives that registry back. -/
theorem add_remove_round_trip_witness :
    ∃ s1, oneUnkeyedState.AddListener (some recordHandler) none ["test-key"]
        = .done (oneUnkeyedState.Len + 1, s1) ∧
      s1.RemoveListener "test-key" = (oneUnkeyedState.Len, oneUnkeyedState) ∧
      (s1.RemoveListener "test-key").2.subscribers = oneUnkeyedState.subscribers ∧
      (s1.RemoveListener "test-key").2.subscribersMap = oneUnkeyedState.subscribersMap :=
  add_remove_round_trip oneUnkeyedState KeyMap.empty rfl (some recordHandler) none
    "test-key" [] (by decide)
    (by
      intro sub hmem
      simp [oneUnkeyedState] at hmem
      subst hmem
      decide)

/-- C17 as stated fails on a registry whose key map is nil.  In the zero
value `BaseSignal[T]{}` the key `"test-key"` is not in the map and is the
key field of no entry, and `AddListener(h, r, "test-key")` panics on the
assignment into the nil map: there is no state to remove from. -/
theorem add_remove_round_trip_fails_on_nil_map :
    (BaseSignal.zero : BaseSignal (List Nat) Unit Nat).hasKey "test-key" = false ∧
    (∀ sub ∈ (BaseSignal.zero : BaseSignal (List Nat) Unit Nat).subscribers,
      sub.key ≠ "test-key") ∧
    (BaseSignal.zero : BaseSignal (List Nat) Unit Nat).AddListener (some recordHandler) none
        ["test-key"] = .panic nilMapPanic ∧
    (BaseSignal.zero : BaseSignal (List Nat) Unit Nat).apply
        (.add (some recordHandler) none ["test-key"]) = none := by
  refine ⟨rfl, ?_, rfl, rfl⟩
  intro sub hmem
  cases hmem

/-! ## C19: the error collection of the concurrent emission -/

/-- The error collection at the first `wg.Wait()`, for present handlers and
an order that names subscriptions only: the nil entries the composite
literal made, one per subscription, followed by what the handler calls
returned, in the order in which the goroutines ran. -/
theorem errorsAfterHandlers_shape {W C T : Type} (s : AsyncSignal W C T) (ctx : C)
    (payload : T) (hOrder : List Nat) (r : Run W C T)
    (hσ : ∀ j ∈ hOrder, j < s.subscribers.length)
    (hh : ∀ sub ∈ s.subscribers, sub.listener.handler.isSome = true) :
    ∃ calls : List (Call C T),
      s.errorsAfterHandlers ctx payload hOrder r
        = some (List.replicate s.subscribers.length none ++ calls.map (fun c => c.result)) ∧
      calls.map Call.sig = hOrder.map (fun j => (Kind.handler, j, ctx, payload)) := by
  obtain ⟨calls, w', htasks, hsig, _⟩ :=
    handlerTasks_spec ctx payload s.subscribers hh hOrder r
      { errors := List.replicate s.subscribers.length none } hσ
  refine ⟨calls, ?_, hsig⟩
  unfold AsyncSignal.errorsAfterHandlers
  rw [htasks]

/-- C19, evaluated where it fails.  In the signal of
`TestSignalAsyncRollback` (two subscriptions, the handler of subscription 0
returns an error, the one of subscription 1 returns nil) the error
collection after the handler phase has four entries, not two; entries 0
and 1 are the nil values `make([]error, 2)` put there, and the recorded
results follow in completion order, so entry 0 is nil although handler 0
returned an error, in whichever order the handlers complete. -/
theorem async_error_list_has_two_entries_per_subscription :
    asyncRollbackSignal.subscribers.length = 2 ∧
    (failingHandler () 1 []).2 = some { msg := "error" } ∧
    asyncRollbackSignal.errorsAfterHandlers () 1 [0, 1] freshRun
      = some [none, none, some { msg := "error" }, none] ∧
    asyncRollbackSignal.errorsAfterHandlers () 1 [1, 0] freshRun
      = some [none, none, none, some { msg := "error" }] := by
  exact ⟨rfl, rfl, rfl, rfl⟩

/-! ## C11: the error returned by the sequential emission -/

/-- The handler loop in general: it makes handler calls only; when it ends
with `count = -1` every call returned nil, when it ends with another
`count` some call returned an error, and when it panics every call made
before returned nil.  It does not panic when every handler is present. -/
theorem handlersLoop_spec {W C T : Type} (ctx : C) (payload : T) :
    ∀ (subs : List (keyedListener W C T)) (k : Nat) (r : Run W C T),
      ∃ calls w' res, handlersLoop ctx payload subs k r
          = ({ world := w', trace := r.trace ++ calls }, res) ∧
        (∀ c ∈ calls, c.kind = Kind.handler) ∧
        (∀ count, res = .done count →
          (count = -1 ∧ ∀ c ∈ calls, c.result = none) ∨
          (count ≠ -1 ∧ ∃ c ∈ calls, c.result ≠ none)) ∧
        (∀ msg, res = .panic msg → ∀ c ∈ calls, c.result = none) ∧
        ((∀ sub ∈ subs, sub.listener.handler.isSome = true) → ∃ count, res = .done count)
  | [], k, r => by
    refine ⟨[], r.world, .done (-1), by simp [handlersLoop], by simp, ?_, ?_, ?_⟩
    · intro count h
      cases h
      exact Or.inl ⟨rfl, by simp⟩
    · intro msg h; cases h
    · intro _; exact ⟨-1, rfl⟩
  | sub :: rest, k, r => by
    cases hf : sub.listener.handler with
    | none =>
      refine ⟨[], r.world, .panic nilCallPanic, by simp [handlersLoop, hf], by simp, ?_, ?_, ?_⟩
      · intro count h; cases h
      · intro _ _; simp
      · intro hall
        have h := hall sub (List.mem_cons_self _ _)
        rw [hf] at h
        cases h
    | some f =>
      cases hres : (f ctx payload r.world).2 with
      | some e =>
        refine ⟨[{ kind := .handler, index := k, ctx := ctx, payload := payload,
                   result := (f ctx payload r.world).2 }], (f ctx payload r.world).1,
          .done (k : Int), ?_, ?_, ?_, ?_, ?_⟩
        · simp [handlersLoop, hf, Run.invoke, hres]
        · intro c hc
          rw [List.mem_singleton.mp hc]
        · intro count h
          cases h
          refine Or.inr ⟨by omega, _, List.mem_singleton_self _, ?_⟩
          simp [hres]
        · intro msg h; cases h
        · intro _; exact ⟨(k : Int), rfl⟩
      | none =>
        obtain ⟨calls, w', res, hloop, hkind, hdone, hpanic, htotal⟩ :=
          handlersLoop_spec ctx payload rest (k + 1) (r.invoke .handler k f ctx payload).1
        refine ⟨{ kind := .handler, index := k, ctx := ctx, payload := payload,
                  result := (f ctx payload r.world).2 } :: calls, w', res, ?_, ?_, ?_, ?_, ?_⟩
        · simp only [handlersLoop, hf, Run.invoke, hres, Option.isSome_none,
            Bool.false_eq_true, if_false]
          simp only [Run.invoke, hres] at hloop
          rw [hloop]
          simp
        · intro c hc
          rcases List.mem_cons.mp hc with hc | hc
          · rw [hc]
          · exact hkind c hc
        · intro count h
          rcases hdone count h with ⟨hc, hall⟩ | ⟨hc, c, hmem, hne⟩
          · refine Or.inl ⟨hc, ?_⟩
            intro c hmem
            rcases List.mem_cons.mp hmem with heq | hmem
            · rw [heq]; exact hres
            · exact hall c hmem
          · exact Or.inr ⟨hc, c, List.mem_cons_of_mem _ hmem, hne⟩
        · intro msg h c hmem
          rcases List.mem_cons.mp hmem with heq | hmem
          · rw [heq]; exact hres
          · exact hpanic msg h c hmem
        · intro hall
          exact htotal (fun sub' hmem => hall sub' (List.mem_cons_of_mem _ hmem))

/-- The rollback loop in general: it makes rollback calls only, and it ends
normally when every rollback is present. -/
theorem rollbacksLoop_spec {W C T : Type} (ctx : C) (payload : T) (count : Int) :
    ∀ (subs : List (keyedListener W C T)) (k : Nat) (r : Run W C T),
      ∃ calls w' res, rollbacksLoop ctx payload count subs k r
          = ({ world := w', trace := r.trace ++ calls }, res) ∧
        (∀ c ∈ calls, c.kind = Kind.rollback) ∧
        ((∀ sub ∈ subs, sub.listener.rollback.isSome = true) → res = .done ())
  | [], k, r => ⟨[], r.world, .done (), by simp [rollbacksLoop], by simp, fun _ => rfl⟩
  | sub :: rest, k, r => by
    cases hf : sub.listener.rollback with
    | none =>
      refine ⟨[], r.world, .panic nilCallPanic, by simp [rollbacksLoop, hf], by simp, ?_⟩
      intro hall
      have h := hall sub (List.mem_cons_self _ _)
      rw [hf] at h
      cases h
    | some f =>
      by_cases hk : (k : Int) = count
      · refine ⟨[{ kind := .rollback, index := k, ctx := ctx, payload := payload,
                   result := (f ctx payload r.world).2 }], (f ctx payload r.world).1,
          .done (), ?_, ?_, fun _ => rfl⟩
        · simp [rollbacksLoop, hf, Run.invoke, hk]
        · intro c hc
          rw [List.mem_singleton.mp hc]
      · obtain ⟨calls, w', res, hloop, hkind, htotal⟩ :=
          rollbacksLoop_spec ctx payload count rest (k + 1)
            (r.invoke .rollback k f ctx payload).1
        refine ⟨{ kind := .rollback, index := k, ctx := ctx, payload := payload,
                  result := (f ctx payload r.world).2 } :: calls, w', res, ?_, ?_, ?_⟩
        · simp only [rollbacksLoop, hf, if_neg hk]
          rw [hloop]
          simp [Run.invoke]
        · intro c hc
          rcases List.mem_cons.mp hc with hc | hc
          · rw [hc]
          · exact hkind c hc
        · intro hall
          exact htotal (fun sub' hmem => hall sub' (List.mem_cons_of_mem _ hmem))

/-- The error of the sequential emission, for calls that return.  For every
`SyncSignal` and every `Emit(ctx, payload)`: when `Emit` returns, the error it returns is non-nil
exactly when some handler it called returned a non-nil error, and a non-nil
error is always the one value with the message "there was an error emitting
signal, rollback was called"; and `Emit` does return when every handler and
every rollback of the registry is present. -/
theorem sync_emit_error_is_generic {W C T : Type} (s : SyncSignal W C T) (ctx : C)
    (payload : T) (r : Run W C T) :
    ∃ calls, (s.Emit ctx payload r).1.trace = r.trace ++ calls ∧
      (∀ err, (s.Emit ctx payload r).2 = .returned err →
        (err ≠ none ↔ ∃ c ∈ calls, c.kind = Kind.handler ∧ c.result ≠ none) ∧
        (err ≠ none → err = some emitError)) ∧
      ((∀ sub ∈ s.subscribers, sub.listener.handler.isSome = true ∧
          sub.listener.rollback.isSome = true) →
        ∃ err, (s.Emit ctx payload r).2 = .returned err) := by
  obtain ⟨hcalls, w1, res, hloop, hkind, hdone, _, htotal⟩ :=
    handlersLoop_spec ctx payload s.subscribers 0 r
  cases res with
  | panic msg =>
    have hemit : s.Emit ctx payload r
        = ({ world := w1, trace := r.trace ++ hcalls }, .panicked msg) := by
      unfold SyncSignal.Emit
      rw [hloop]
    rw [hemit]
    refine ⟨hcalls, rfl, ?_, ?_⟩
    · intro err h
      cases h
    · intro hall
      obtain ⟨count, hc⟩ := htotal (fun sub hmem => (hall sub hmem).1)
      cases hc
  | done count =>
    by_cases hc : count = -1
    · have hemit : s.Emit ctx payload r
          = ({ world := w1, trace := r.trace ++ hcalls }, .returned none) := by
        unfold SyncSignal.Emit
        rw [hloop]
        simp only [hc, if_true]
      rw [hemit]
      refine ⟨hcalls, rfl, ?_, fun _ => ⟨none, rfl⟩⟩
      intro err h
      cases h
      refine ⟨⟨fun h => absurd rfl h, ?_⟩, fun h => absurd rfl h⟩
      rintro ⟨c, hmem, _, hne⟩
      rcases hdone count rfl with ⟨_, hall⟩ | ⟨hne1, _⟩
      · exact absurd (hall c hmem) hne
      · exact absurd hc hne1
    · obtain ⟨rcalls, w2, res2, rloop, _, rtotal⟩ :=
        rollbacksLoop_spec ctx payload count s.subscribers 0
          { world := w1, trace := r.trace ++ hcalls }
      have hfailed : ∃ c ∈ hcalls ++ rcalls, c.kind = Kind.handler ∧ c.result ≠ none := by
        rcases hdone count rfl with ⟨h1, _⟩ | ⟨_, c, hmem, hne⟩
        · exact absurd h1 hc
        · exact ⟨c, List.mem_append_left _ hmem, hkind c hmem, hne⟩
      cases res2 with
      | panic msg =>
        have hemit : s.Emit ctx payload r
            = ({ world := w2, trace := r.trace ++ hcalls ++ rcalls }, .panicked msg) := by
          unfold SyncSignal.Emit
          rw [hloop]
          simp only [if_neg hc]
          rw [rloop]
        rw [hemit]
        refine ⟨hcalls ++ rcalls, by simp, ?_, ?_⟩
        · intro err h
          cases h
        · intro hall
          have h := rtotal (fun sub hmem => (hall sub hmem).2)
          cases h
      | done u =>
        have hemit : s.Emit ctx payload r
            = ({ world := w2, trace := r.trace ++ hcalls ++ rcalls },
               .returned (some emitError)) := by
          unfold SyncSignal.Emit
          rw [hloop]
          simp only [if_neg hc]
          rw [rloop]
        rw [hemit]
        refine ⟨hcalls ++ rcalls, by simp, ?_, fun _ => ⟨some emitError, rfl⟩⟩
        intro err h
        cases h
        exact ⟨⟨fun _ => hfailed, fun _ => by simp⟩, fun _ => rfl⟩

/-- C11, evaluated where it fails.  `docExampleSignal` is the registration
of the doc comment of `AddListener`, a handler with a nil rollback.  The
only call `Emit` makes is the handler at index 0, which returns a non-nil
error; `Emit` then panics on the nil rollback in the rollback loop and
returns no error at all, so the handler failed and `Emit` did not return
the emission error. -/
theorem sync_emit_error_fails_on_nil_rollback :
    (docExampleSignal.Emit () 1 freshRun).1.trace.map Call.sig = [(Kind.handler, 0, (), 1)] ∧
    (docExampleSignal.Emit () 1 freshRun).1.trace.map (fun c => c.result)
      = [some { msg := "error" }] ∧
    (docExampleSignal.Emit () 1 freshRun).2 = .panicked nilCallPanic ∧
    (¬ ∃ err, (docExampleSignal.Emit () 1 freshRun).2 = .returned err) := by
  refine ⟨rfl, rfl, rfl, ?_⟩
  rintro ⟨err, h⟩
  have h' : EmitResult.panicked nilCallPanic = EmitResult.returned err := h
  cases h'

/-! ## C12: what the rollbacks return is ignored -/

/-- An emission whose first failing handler is at index `i`, with the
rollbacks `0..i` present: the result, the calls and the final state. -/
theorem sync_emit_first_failure {W C T : Type} (s : SyncSignal W C T) (ctx : C)
    (payload : T) (r : Run W C T) (i : Nat)
    (hok : ∀ j, j < i → handlerReturn ctx payload s.subscribers r.world j = some none)
    (hfail : ∃ e, handlerReturn ctx payload s.subscribers r.world i = some (some e))
    (hrb : ∀ j, j ≤ i → ∀ sub, s.subscribers[j]? = some sub →
      sub.listener.rollback.isSome = true) :
    ∃ calls w', s.Emit ctx payload r
        = ({ world := w', trace := r.trace ++ calls }, .returned (some emitError)) ∧
      calls.map Call.sig
        = callSigs .handler ctx payload (i + 1) ++ callSigs .rollback ctx payload (i + 1) := by
  have hi : i < s.subscribers.length := by
    obtain ⟨e, he⟩ := hfail
    exact lt_length_of_handlerReturn ctx payload s.subscribers r.world i _ he
  obtain ⟨hcalls, hloop, hsig⟩ :=
    handlersLoop_first_failure ctx payload s.subscribers 0 r i hok hfail
  obtain ⟨rcalls, rloop, rsig⟩ :=
    rollbacksLoop_upto ctx payload s.subscribers 0
      { world := handlersWorld ctx payload (s.subscribers.take (i + 1)) r.world,
        trace := r.trace ++ hcalls } i hi hrb
  have hcount : ¬ (((0 + i : Nat) : Int) = -1) := by omega
  refine ⟨hcalls ++ rcalls,
    rollbacksWorld ctx payload (s.subscribers.take (i + 1))
      (handlersWorld ctx payload (s.subscribers.take (i + 1)) r.world), ?_, ?_⟩
  · unfold SyncSignal.Emit
    rw [hloop]
    simp only [if_neg hcount]
    rw [rloop]
    simp
  · rw [List.map_append, hsig, rsig, range_map_zero_add, range_map_zero_add]

theorem handlersLoop_variant {W C T : Type} (ctx : C) (payload : T) :
    ∀ (subs1 subs2 : List (keyedListener W C T)), rollbackVariant subs1 subs2 →
      ∀ (k : Nat) (r : Run W C T),
        handlersLoop ctx payload subs1 k r = handlersLoop ctx payload subs2 k r
  | [], [], _, _, _ => rfl
  | [], _ :: _, h, _, _ => by simp [rollbackVariant] at h
  | _ :: _, [], h, _, _ => by simp [rollbackVariant] at h
  | a :: as, b :: bs, h, k, r => by
    obtain ⟨_, hh, _, hrest⟩ := h
    unfold handlersLoop
    rw [hh]
    cases b.listener.handler with
    | none => rfl
    | some f =>
      simp only
      by_cases hres : (r.invoke .handler k f ctx payload).2.isSome = true
      · simp only [hres, if_true]
      · simp only [hres, if_false]
        exact handlersLoop_variant ctx payload as bs hrest (k + 1) _

theorem rollbacksLoop_variant {W C T : Type} (ctx : C) (payload : T) (count : Int) :
    ∀ (subs1 subs2 : List (keyedListener W C T)), rollbackVariant subs1 subs2 →
      ∀ (k : Nat) (r1 r2 : Run W C T), r1.world = r2.world →
        r1.trace.map Call.sig = r2.trace.map Call.sig →
        (rollbacksLoop ctx payload count subs1 k r1).1.world
          = (rollbacksLoop ctx payload count subs2 k r2).1.world ∧
        (rollbacksLoop ctx payload count subs1 k r1).1.trace.map Call.sig
          = (rollbacksLoop ctx payload count subs2 k r2).1.trace.map Call.sig ∧
        (rollbacksLoop ctx payload count subs1 k r1).2
          = (rollbacksLoop ctx payload count subs2 k r2).2
  | [], [], _, _, _, _, hw, ht => ⟨hw, ht, rfl⟩
  | [], _ :: _, h, _, _, _, _, _ => by simp [rollbackVariant] at h
  | _ :: _, [], h, _, _, _, _, _ => by simp [rollbackVariant] at h
  | a :: as, b :: bs, h, k, r1, r2, hw, ht => by
    obtain ⟨_, _, heff, hrest⟩ := h
    cases ha : a.listener.rollback with
    | none =>
      cases hb : b.listener.rollback with
      | none =>
        simp only [rollbacksLoop, ha, hb]
        exact ⟨hw, ht, trivial⟩
      | some g => rw [ha, hb] at heff; exact absurd heff (by simp [sameRollbackEffect])
    | some f =>
      cases hb : b.listener.rollback with
      | none => rw [ha, hb] at heff; exact absurd heff (by simp [sameRollbackEffect])
      | some g =>
        rw [ha, hb] at heff
        have hw' : (f ctx payload r1.world).1 = (g ctx payload r2.world).1 := by
          rw [hw]
          exact heff ctx payload r2.world
        have ht' : (r1.invoke .rollback k f ctx payload).1.trace.map Call.sig
            = (r2.invoke .rollback k g ctx payload).1.trace.map Call.sig := by
          simp [Run.invoke, ht, Call.sig]
        by_cases hk : (k : Int) = count
        · simp only [rollbacksLoop, ha, hb, hk, if_true]
          exact ⟨hw', ht', trivial⟩
        · simp only [rollbacksLoop, ha, hb, if_neg hk]
          exact rollbacksLoop_variant ctx payload count as bs hrest (k + 1) _ _ hw' ht'

/-- C12. Rollback failures are swallowed: take two `SyncSignal`s that
differ at most in the errors their rollbacks return (same handlers, nil
rollbacks at the same places, present rollbacks with the same effect on the
captured variables).  The same `Emit(ctx, payload)` on both returns the
same result, calls the same handlers and the same rollbacks in the same
order with the same arguments, and leaves the captured variables in the
same state.  And when the first failing handler is at index `i` and the
rollbacks `0..i` are present, all of them are called, whatever the earlier
ones returned. -/
theorem sync_emit_ignores_rollback_results {W C T : Type} (s1 s2 : SyncSignal W C T)
    (ctx : C) (payload : T) (r : Run W C T)
    (hvar : rollbackVariant s1.subscribers s2.subscribers) :
    (s1.Emit ctx payload r).2 = (s2.Emit ctx payload r).2 ∧
    (s1.Emit ctx payload r).1.trace.map Call.sig
      = (s2.Emit ctx payload r).1.trace.map Call.sig ∧
    (s1.Emit ctx payload r).1.world = (s2.Emit ctx payload r).1.world ∧
    (∀ i,
      (∀ j, j < i → handlerReturn ctx payload s1.subscribers r.world j = some none) →
      (∃ e, handlerReturn ctx payload s1.subscribers r.world i = some (some e)) →
      (∀ j, j ≤ i → ∀ sub, s1.subscribers[j]? = some sub →
        sub.listener.rollback.isSome = true) →
      ∃ calls, (s1.Emit ctx payload r).1.trace = r.trace ++ calls ∧
        calls.map Call.sig
          = callSigs .handler ctx payload (i + 1) ++ callSigs .rollback ctx payload (i + 1)) := by
  have hsame : (s1.Emit ctx payload r).2 = (s2.Emit ctx payload r).2 ∧
      (s1.Emit ctx payload r).1.trace.map Call.sig
        = (s2.Emit ctx payload r).1.trace.map Call.sig ∧
      (s1.Emit ctx payload r).1.world = (s2.Emit ctx payload r).1.world := by
    have hloop := handlersLoop_variant ctx payload s1.subscribers s2.subscribers hvar 0 r
    unfold SyncSignal.Emit
    rw [hloop]
    rcases h : handlersLoop ctx payload s2.subscribers 0 r with ⟨r1, res⟩
    cases res with
    | panic msg => exact ⟨rfl, rfl, rfl⟩
    | done count =>
      by_cases hc : count = -1
      · simp only [hc, if_true, and_self]
      · simp only [if_neg hc]
        obtain ⟨hw, ht, hres⟩ :=
          rollbacksLoop_variant ctx payload count s1.subscribers s2.subscribers hvar 0 r1 r1
            rfl rfl
        rcases h1 : rollbacksLoop ctx payload count s1.subscribers 0 r1 with ⟨a1, res1⟩
        rcases h2 : rollbacksLoop ctx payload count s2.subscribers 0 r1 with ⟨a2, res2⟩
        rw [h1, h2] at hw ht hres
        simp only at hw ht hres
        subst hres
        cases res1 <;> exact ⟨rfl, ht, hw⟩
  refine ⟨hsame.1, hsame.2.1, hsame.2.2, ?_⟩
  intro i hok hfail hrb
  obtain ⟨calls, w', hemit, hsig⟩ := sync_emit_first_failure s1 ctx payload r i hok hfail hrb
  exact ⟨calls, by rw [hemit], hsig⟩

/-- C12 at `TestSignalRollback`, once with its rollback and once with a
rollback that does the same and returns an error: the two emissions end
the same way. -/
theorem sync_emit_ignores_rollback_results_witness :
    rollbackVariant rollbackSignal.subscribers rollbackSignalFailing.subscribers ∧
    (rollbackSignal.Emit () 1 freshRun).2 = (rollbackSignalFailing.Emit () 1 freshRun).2 ∧
    (rollbackSignal.Emit () 1 freshRun).1.trace.map Call.sig
      = (rollbackSignalFailing.Emit () 1 freshRun).1.trace.map Call.sig ∧
    (rollbackSignal.Emit () 1 freshRun).1.world
      = (rollbackSignalFailing.Emit () 1 freshRun).1.world ∧
    (rollbackSignalFailing.Emit () 1 freshRun).1.trace.map (fun c => c.result)
      = [some { msg := "error" }, some { msg := "rollback failed" }] :=
  have hvar : rollbackVariant rollbackSignal.subscribers rollbackSignalFailing.subscribers := by
    simp [rollbackVariant, rollbackSignal, rollbackSignalFailing, sameRollbackEffect,
      recordRollback, failingRollback]
  have h := sync_emit_ignores_rollback_results rollbackSignal rollbackSignalFailing () 1
    freshRun hvar
  ⟨hvar, h.1, h.2.1, h.2.2.1, rfl⟩

/-! ## C18: the two strategies return the same result -/

/-- Among present handlers whose returned error does not depend on the
captured variables, if one returns an error there is a first one that does
when they are called one after the other. -/
theorem exists_first_failure {W C T : Type} (ctx : C) (payload : T) :
    ∀ (subs : List (keyedListener W C T)) (w : W),
      (∀ sub ∈ subs, ∃ f, sub.listener.handler = some f ∧
        ∀ w1 w2, (f ctx payload w1).2 = (f ctx payload w2).2) →
      (∃ sub ∈ subs, ∃ f, sub.listener.handler = some f ∧ (f ctx payload w).2 ≠ none) →
      ∃ i, (∀ j, j < i → handlerReturn ctx payload subs w j = some none) ∧
        ∃ e, handlerReturn ctx payload subs w i = some (some e)
  | [], _, _, hany => by
    obtain ⟨sub, hmem, _⟩ := hany
    cases hmem
  | sub :: rest, w, hpure, hany => by
    obtain ⟨f, hf, hfp⟩ := hpure sub (List.mem_cons_self _ _)
    cases hres : (f ctx payload w).2 with
    | some e =>
      refine ⟨0, fun j hj => absurd hj (Nat.not_lt_zero j), e, ?_⟩
      rw [handlerReturn_zero, hf]
      simp [hres]
    | none =>
      have hany' : ∃ sub' ∈ rest, ∃ f', sub'.listener.handler = some f' ∧
          (f' ctx payload (f ctx payload w).1).2 ≠ none := by
        obtain ⟨sub', hmem, f', hf', hne⟩ := hany
        rcases List.mem_cons.mp hmem with heq | hmem
        · subst heq
          rw [hf] at hf'
          cases hf'
          exact absurd hres hne
        · obtain ⟨g, hg, hgp⟩ := hpure sub' (List.mem_cons_of_mem _ hmem)
          rw [hg] at hf'
          cases hf'
          exact ⟨sub', hmem, f', hg, by rw [hgp _ w]; exact hne⟩
      obtain ⟨i, hok, e, he⟩ :=
        exists_first_failure ctx payload rest (f ctx payload w).1
          (fun sub' hmem => hpure sub' (List.mem_cons_of_mem _ hmem)) hany'
      refine ⟨i + 1, ?_, e, ?_⟩
      · intro j hj
        cases j with
        | zero =>
          rw [handlerReturn_zero, hf]
          simp [hres]
        | succ j =>
          rw [handlerReturn_succ ctx payload sub f hf]
          exact hok j (Nat.lt_of_succ_lt_succ hj)
      · rw [handlerReturn_succ ctx payload sub f hf]
        exact he

/-- C18, for present handlers.  The two dispatch strategies agree on the
outcome: take a subscriber sequence whose handlers are present and return errors that
depend only on `(ctx, payload)`, and whose rollbacks are present, on a
`SyncSignal` and on an `AsyncSignal`, and any orders of the goroutines.
Both `Emit`s return the same result: nil exactly when every handler
returns nil, and otherwise the error with the emission message.  When the
result is nil both call all `N` handlers and no rollback.  When it is not,
the sequential one calls the handlers `0..i` and then the rollbacks `0..i`
for some `i < N`, and the concurrent one calls all `N` handlers and then
all `N` rollbacks. -/
theorem sync_async_emit_agree {W C T : Type} (s : SyncSignal W C T) (a : AsyncSignal W C T)
    (hsubs : a.subscribers = s.subscribers) (ctx : C) (payload : T)
    (hOrder rOrder : List Nat) (r : Run W C T)
    (hσ : hOrder.Perm (List.range s.subscribers.length))
    (hτ : rOrder.Perm (List.range s.subscribers.length))
    (hpure : ∀ sub ∈ s.subscribers, ∃ f, sub.listener.handler = some f ∧
      ∀ w1 w2, (f ctx payload w1).2 = (f ctx payload w2).2)
    (hrb : ∀ sub ∈ s.subscribers, sub.listener.rollback.isSome = true) :
    (s.Emit ctx payload r).2 = (a.Emit ctx payload hOrder rOrder r).2 ∧
    ((s.Emit ctx payload r).2 = .returned none ↔
      ∀ sub ∈ s.subscribers, ∀ f, sub.listener.handler = some f →
        (f ctx payload r.world).2 = none) ∧
    ((s.Emit ctx payload r).2 ≠ .returned none →
      (s.Emit ctx payload r).2 = .returned (some emitError) ∧
      (∀ err, (a.Emit ctx payload hOrder rOrder r).2 = .returned (some err) →
        err.msg = emitError.msg)) ∧
    (∃ scalls acalls,
      (s.Emit ctx payload r).1.trace = r.trace ++ scalls ∧
      (a.Emit ctx payload hOrder rOrder r).1.trace = r.trace ++ acalls ∧
      ((s.Emit ctx payload r).2 = .returned none →
        scalls.map Call.sig = callSigs .handler ctx payload s.subscribers.length ∧
        (acalls.map Call.sig).Perm (callSigs .handler ctx payload s.subscribers.length)) ∧
      ((s.Emit ctx payload r).2 ≠ .returned none →
        (∃ i, i < s.subscribers.length ∧
          scalls.map Call.sig
            = callSigs .handler ctx payload (i + 1) ++ callSigs .rollback ctx payload (i + 1)) ∧
        acalls.map Call.sig
          = hOrder.map (fun j => (Kind.handler, j, ctx, payload))
            ++ rOrder.map (fun j => (Kind.rollback, j, ctx, payload)) ∧
        (acalls.map Call.sig).Perm
          (callSigs .handler ctx payload s.subscribers.length
            ++ callSigs .rollback ctx payload s.subscribers.length))) := by
  have hh : ∀ sub ∈ a.subscribers, sub.listener.handler.isSome = true := by
    intro sub hmem
    rw [hsubs] at hmem
    obtain ⟨f, hf, _⟩ := hpure sub hmem
    rw [hf]
    rfl
  have hpure' : ∀ sub ∈ a.subscribers, ∀ f, sub.listener.handler = some f →
      ∀ w w', (f ctx payload w).2 = (f ctx payload w').2 := by
    intro sub hmem f hf
    rw [hsubs] at hmem
    obtain ⟨g, hg, hgp⟩ := hpure sub hmem
    rw [hg] at hf
    cases hf
    exact hgp
  have hσa : hOrder.Perm (List.range a.subscribers.length) := by rw [hsubs]; exact hσ
  have hτa : rOrder.Perm (List.range a.subscribers.length) := by rw [hsubs]; exact hτ
  obtain ⟨hcalls, rcalls, atrace, asig, aret, _, anil, aerr⟩ :=
    async_emit_core a ctx payload hOrder rOrder r (range_bound_of_perm hσa) hh
  have hiff := async_some_call_fails_iff a ctx payload hOrder r.world hcalls hσa asig aret hpure'
  rw [hsubs] at hiff
  by_cases hany : ∃ sub ∈ s.subscribers, ∃ f, sub.listener.handler = some f ∧
      (f ctx payload r.world).2 ≠ none
  · obtain ⟨i, hok, hfail⟩ := exists_first_failure ctx payload s.subscribers r.world hpure hany
    have hi : i < s.subscribers.length := by
      obtain ⟨e, he⟩ := hfail
      exact lt_length_of_handlerReturn ctx payload s.subscribers r.world i _ he
    obtain ⟨scalls, w', semit, ssig⟩ :=
      sync_emit_first_failure s ctx payload r i hok hfail
        (fun j _ sub hget => by
          obtain ⟨hlt, heq⟩ := List.getElem?_eq_some.mp hget
          exact hrb sub (heq ▸ List.getElem_mem hlt))
    obtain ⟨rsig, ares⟩ := aerr (hiff.mpr hany) (range_bound_of_perm hτa)
      (by rw [hsubs]; exact hrb)
    have hne : (EmitResult.returned (some emitError)) ≠ .returned none := by
      intro h; cases h
    rw [semit, ares]
    refine ⟨rfl, ⟨fun h => absurd h hne, ?_⟩, fun _ => ⟨rfl, ?_⟩, ?_⟩
    · intro hall
      obtain ⟨sub, hmem, f, hf, hres⟩ := hany
      exact absurd (hall sub hmem f hf) hres
    · intro err h
      cases h
      rfl
    · refine ⟨scalls, hcalls ++ rcalls, rfl, by rw [atrace, List.append_assoc], ?_, ?_⟩
      · intro h
        exact absurd h hne
      · intro _
        refine ⟨⟨i, hi, ssig⟩, by rw [List.map_append, asig, rsig], ?_⟩
        rw [List.map_append, asig, rsig]
        exact List.Perm.append (hσ.map _) (hτ.map _)
  · have hnil : ∀ sub ∈ s.subscribers, ∃ f, sub.listener.handler = some f ∧
        ∀ w, (f ctx payload w).2 = none := by
      intro sub hmem
      obtain ⟨f, hf, hfp⟩ := hpure sub hmem
      refine ⟨f, hf, fun w => ?_⟩
      rw [hfp w r.world]
      by_contra hne
      exact hany ⟨sub, hmem, f, hf, hne⟩
    obtain ⟨scalls, semit, ssig⟩ := sync_emit_all_nil s ctx payload r hnil
    have hall : ∀ c ∈ hcalls, c.result = none := by
      intro c hc
      by_contra hne
      exact hany (hiff.mp ⟨c, hc, hne⟩)
    obtain ⟨hrc, ares⟩ := anil hall
    rw [semit, ares]
    refine ⟨rfl, ⟨fun _ => ?_, fun _ => rfl⟩, fun h => absurd rfl h, ?_⟩
    · intro sub hmem f hf
      obtain ⟨g, hg, hgn⟩ := hnil sub hmem
      rw [hg] at hf
      cases hf
      exact hgn r.world
    · refine ⟨scalls, hcalls, rfl, by rw [atrace, hrc, List.append_nil], ?_, ?_⟩
      · intro _
        refine ⟨ssig, ?_⟩
        rw [asig]
        exact hσ.map _
      · intro h
        exact absurd rfl h

/-- C18 at the listeners of `TestSignalAsyncRollback`, sequentially and
concurrently with the second handler finishing first: both `Emit`s return
the emission error. -/
theorem sync_async_emit_agree_witness :
    (bothRollbackSignal.Emit () 1 freshRun).2
        = (asyncRollbackSignal.Emit () 1 [1, 0] [0, 1] freshRun).2 ∧
    (bothRollbackSignal.Emit () 1 freshRun).2 = .returned (some emitError) :=
  have h := sync_async_emit_agree bothRollbackSignal asyncRollbackSignal rfl () 1 [1, 0] [0, 1]
    freshRun (List.Perm.swap 0 1 []) (List.Perm.refl _)
    (by
      intro sub hmem
      simp [bothRollbackSignal, asyncRollbackSignal] at hmem
      rcases hmem with h | h <;> subst h
      · exact ⟨failingHandler, rfl, fun _ _ => rfl⟩
      · exact ⟨recordHandler, rfl, fun _ _ => rfl⟩)
    (by
      intro sub hmem
      simp [bothRollbackSignal, asyncRollbackSignal] at hmem
      rcases hmem with h | h <;> subst h <;> rfl)
  ⟨h.1, (h.2.2.1 (by rw [show (bothRollbackSignal.Emit () 1 freshRun).2
      = .returned (some emitError) from rfl]; intro hc; cases hc)).1⟩

/-- C18 as stated fails where a handler is nil.  In
`nilSecondHandlerSubscribers` every rollback is present and every handler
that exists returns an error that does not depend on the captured
variables.  The sequential `Emit` stops at the failing handler of index 0,
calls its rollback and returns the emission error; the concurrent `Emit`
starts a goroutine for the nil handler of index 1, which panics, in
whichever order the two goroutines run, and no rollback is called. -/
theorem sync_async_emit_disagree_on_nil_handler :
    nilSecondHandlerAsync.subscribers = nilSecondHandlerSync.subscribers ∧
    (∀ sub ∈ nilSecondHandlerSync.subscribers, sub.listener.rollback.isSome = true) ∧
    (∀ sub ∈ nilSecondHandlerSync.subscribers, ∀ f, sub.listener.handler = some f →
      ∀ w1 w2 : List Nat, (f () 1 w1).2 = (f () 1 w2).2) ∧
    (nilSecondHandlerSync.Emit () 1 freshRun).2 = .returned (some emitError) ∧
    (nilSecondHandlerSync.Emit () 1 freshRun).1.trace.map Call.sig
      = [(Kind.handler, 0, (), 1), (Kind.rollback, 0, (), 1)] ∧
    (nilSecondHandlerAsync.Emit () 1 [0, 1] [0, 1] freshRun).2 = .panicked nilCallPanic ∧
    (nilSecondHandlerAsync.Emit () 1 [1, 0] [0, 1] freshRun).2 = .panicked nilCallPanic ∧
    (nilSecondHandlerAsync.Emit () 1 [0, 1] [0, 1] freshRun).1.trace.map Call.sig
      = [(Kind.handler, 0, (), 1)] ∧
    (nilSecondHandlerSync.Emit () 1 freshRun).2
      ≠ (nilSecondHandlerAsync.Emit () 1 [0, 1] [0, 1] freshRun).2 := by
  refine ⟨rfl, ?_, ?_, rfl, rfl, rfl, rfl, rfl, ?_⟩
  · intro sub hmem
    simp [nilSecondHandlerSync, nilSecondHandlerSubscribers] at hmem
    rcases hmem with h | h <;> subst h <;> rfl
  · intro sub hmem f hf w1 w2
    simp [nilSecondHandlerSync, nilSecondHandlerSubscribers] at hmem
    rcases hmem with h | h
    · subst h
      simp only [Option.some.injEq] at hf
      subst hf
      rfl
    · subst h
      cases hf
  · intro h
    have h' : EmitResult.returned (some emitError) = EmitResult.panicked nilCallPanic := h
    cases h'

end Signals
